import Mathlib

/-!
Verification development for the figgit variable-export plugin.

The definitions below are shallow embeddings of the plugin's TypeScript
sources (`src/util/stableStringify.ts`, `src/export/hash.ts`,
`src/util/dtcgUtils.ts`, `src/util/colorUtils.ts`, `src/util/slugify.ts`,
`src/util/path.ts`, `src/util/retry.ts`, `src/export/buildDtcgJson.ts`,
`src/export/buildFigmaNativeExport.ts`, `src/export/buildExportBundle.ts`,
`src/github/githubClient.ts`).  JavaScript values are modelled by the
inductive type `JVal`; JS numbers are modelled as rationals (every numeric
value the theorems evaluate is an exact small integer, and no claim-relevant
code path performs lossy floating-point arithmetic).  External collaborators
(the host document API, `JSON.parse`, the HTTP transport) are modelled as
explicit oracle parameters; everything implemented inside the repository is
translated directly from its source.
-/

namespace Figgit

/-- Model of a JavaScript/JSON value.  `obj` keeps the insertion order of
keys, as JavaScript objects do; JS guarantees keys are unique within one
object.  Numbers are rationals (see the module comment). -/
inductive JVal where
  | null : JVal
  | bool : Bool → JVal
  | num : Rat → JVal
  | str : String → JVal
  | arr : List JVal → JVal
  | obj : List (String × JVal) → JVal

/-- JS truthiness.  `NaN` (falsy in JS) has no counterpart here; no value in
this program is ever `NaN`. -/
def jsTruthy : JVal → Bool
  | .null => false
  | .bool b => b
  | .num q => decide (q ≠ 0)
  | .str s => decide (s ≠ "")
  | .arr _ => true
  | .obj _ => true

/-- JS property read with optional chaining semantics: reading a property of
a non-object (or an absent key, or `null`) yields `undefined`, modelled as
`none`. -/
def objGet (v : JVal) (k : String) : Option JVal :=
  match v with
  | .obj ps => List.lookup k ps
  | _ => none

/-- JS property assignment on an object: an existing key keeps its position
and gets the new value, a new key is appended. -/
def objSet : List (String × JVal) → String → JVal → List (String × JVal)
  | [], k, v => [(k, v)]
  | (k₁, v₁) :: ps, k, v =>
    if k₁ = k then (k₁, v) :: ps else (k₁, v₁) :: objSet ps k v

/-- Removing a key from an object.  Used to model spreading an object while
overwriting a field with `undefined`: `JSON.stringify` later drops
`undefined`-valued keys, so the net effect on serialized output is removal. -/
def objRemove (ps : List (String × JVal)) (k : String) : List (String × JVal) :=
  ps.filter (fun p => p.1 ≠ k)

/-- Rendering of a JS number as text.  Exact for integers — the only numeric
values any theorem in this file evaluates.  For non-integral rationals this
abstracts the platform's double-to-shortest-string algorithm (an external
platform behaviour). -/
def renderNum (q : Rat) : String :=
  if q.den = 1 then toString q.num else toString q

/-- `String(value)` coercion, as used by `inferPrimitive`'s fallback.  Only
`null`, plain objects and arrays reach this in the program. -/
def jsToString : JVal → String
  | .null => "null"
  | .bool b => if b then "true" else "false"
  | .num q => renderNum q
  | .str s => s
  | .obj _ => "[object Object]"
  | .arr _ => ""

/-! ### Deterministic serializer (`src/util/stableStringify.ts`) -/

/-- Lexicographic comparison of character lists by code point.  JS string
comparison (used by `Array.prototype.sort`'s default comparator and modelled
for `localeCompare` as well) is by UTF-16 code units; code-point order
coincides with it below U+10000, and no key this program sorts contains
astral characters. -/
def lexLe : List Char → List Char → Bool
  | [], _ => true
  | _ :: _, [] => false
  | a :: as, b :: bs =>
    if a.toNat < b.toNat then true
    else if b.toNat < a.toNat then false
    else lexLe as bs

/-- String comparison built on `lexLe`. -/
def strLeB (s t : String) : Bool := lexLe s.toList t.toList

/-- The key order `stableStringify` sorts object entries by
(`Object.keys(val).sort()`). -/
def keyRel (p q : String × JVal) : Prop := strLeB p.1 q.1 = true

instance : DecidableRel keyRel :=
  fun p q => inferInstanceAs (Decidable (strLeB p.1 q.1 = true))

mutual

/-- `sortValue` from `stableStringify.ts`: arrays are mapped element-wise in
order; plain objects have their keys sorted at every nesting level;
primitives pass through.  The source sorts the keys first and then recurses
into the values; recursing first and then sorting (as below) yields the same
object because sorting only inspects keys and recursion never changes a
key. -/
def sortValue : JVal → JVal
  | .null => .null
  | .bool b => .bool b
  | .num q => .num q
  | .str s => .str s
  | .arr xs => .arr (sortList xs)
  | .obj ps => .obj (List.insertionSort keyRel (sortPairs ps))

/-- Element-wise recursion of `sortValue` over an array. -/
def sortList : List JVal → List JVal
  | [] => []
  | x :: xs => sortValue x :: sortList xs

/-- Recursion of `sortValue` into the values of an object. -/
def sortPairs : List (String × JVal) → List (String × JVal)
  | [] => []
  | (k, v) :: ps => (k, sortValue v) :: sortPairs ps

end

end Figgit

namespace Figgit

/-- JSON string escaping as performed by `JSON.stringify`. -/
def jsonEscapeChar (c : Char) : String :=
  if c = '"' then "\\\""
  else if c = '\\' then "\\\\"
  else if c = '\n' then "\\n"
  else if c = '\r' then "\\r"
  else if c = '\t' then "\\t"
  else if c = '\x08' then "\\b"
  else if c = '\x0c' then "\\f"
  else if c.toNat < 0x20 then
    "\\u00" ++ String.mk [Nat.digitChar (c.toNat / 16), Nat.digitChar (c.toNat % 16)]
  else String.mk [c]

def jsonEscape (s : String) : String :=
  String.join (s.toList.map jsonEscapeChar)

def joinSep (sep : String) : List String → String
  | [] => ""
  | [x] => x
  | x :: y :: xs => x ++ sep ++ joinSep sep (y :: xs)

def indentStr (space d : Nat) : String :=
  String.mk (List.replicate (space * d) ' ')

mutual

/-- `JSON.stringify(v, null, space)` with a positive numeric `space`
(every call in the repository uses the default `space = 2`).  Empty objects
and arrays render compactly; `undefined`-valued keys never occur here
because the builders omit absent fields at construction time. -/
def renderJ (space : Nat) : Nat → JVal → String
  | _, .null => "null"
  | _, .bool b => if b then "true" else "false"
  | _, .num q => renderNum q
  | _, .str s => "\"" ++ jsonEscape s ++ "\""
  | _, .arr [] => "[]"
  | d, .arr (x :: xs) =>
      "[\n" ++ joinSep ",\n" (renderArrItems space (d + 1) (x :: xs)) ++
        "\n" ++ indentStr space d ++ "]"
  | _, .obj [] => "\x7b\x7d"
  | d, .obj (p :: ps) =>
      "\x7b\n" ++ joinSep ",\n" (renderObjItems space (d + 1) (p :: ps)) ++
        "\n" ++ indentStr space d ++ "\x7d"

/-- Rendered, indented items of a JSON array. -/
def renderArrItems (space d : Nat) : List JVal → List String
  | [] => []
  | x :: xs => (indentStr space d ++ renderJ space d x) :: renderArrItems space d xs

/-- Rendered, indented `"key": value` items of a JSON object. -/
def renderObjItems (space d : Nat) : List (String × JVal) → List String
  | [] => []
  | (k, v) :: ps =>
      (indentStr space d ++ "\"" ++ jsonEscape k ++ "\": " ++ renderJ space d v) ::
        renderObjItems space d ps

end

/-- `stableStringify` from `src/util/stableStringify.ts`:
`JSON.stringify(sortValue(obj), null, space)`. -/
def stableStringify (v : JVal) (space : Nat) : String :=
  renderJ space 0 (sortValue v)

end Figgit

namespace Figgit

/-! ### SHA-256 (`src/export/hash.ts`)

A direct translation of `sha256Pure`.  All 32-bit arithmetic is modelled on
`Nat` with explicit `% 2 ^ 32` where JavaScript coerces to 32 bits
(`>>> 0`, `Uint8Array`/`Uint32Array` stores, bitwise results).  One JS
semantic detail is preserved faithfully: a JS shift count is taken modulo
32, so the loop writing the 64-bit big-endian message length actually
duplicates the low four bytes of `bitLen` into the high four bytes
(`bitLen >>> 32 === bitLen >>> 0`).  The repository's tests only assert
determinism and output shape, so this deviation from FIPS 180-4 is part of
the program's observable behaviour and is reproduced exactly. -/

/-- UTF-8 encoding of one scalar value, as produced by `stringToUtf8Bytes`.
The source iterates UTF-16 code units and reassembles surrogate pairs; on
well-formed strings (all Lean strings) the result is standard UTF-8. -/
def charUtf8 (c : Char) : List Nat :=
  let n := c.toNat
  if n < 0x80 then [n]
  else if n < 0x800 then [0xc0 ||| (n >>> 6), 0x80 ||| (n &&& 0x3f)]
  else if n < 0x10000 then
    [0xe0 ||| (n >>> 12), 0x80 ||| ((n >>> 6) &&& 0x3f), 0x80 ||| (n &&& 0x3f)]
  else
    [0xf0 ||| (n >>> 18), 0x80 ||| ((n >>> 12) &&& 0x3f),
     0x80 ||| ((n >>> 6) &&& 0x3f), 0x80 ||| (n &&& 0x3f)]

/-- `stringToUtf8Bytes` from `hash.ts`. -/
def stringToUtf8Bytes (s : String) : List Nat :=
  (s.toList.map charUtf8).flatten

/-- `rotr` from `hash.ts`, on 32-bit words. -/
def rotr (n x : Nat) : Nat :=
  ((n >>> x) ||| (n <<< (32 - x))) % 4294967296

/-- SHA-256 round constants `K` (the source writes them in hexadecimal;
decimal here, value for value). -/
def sha256K : List Nat :=
  [1116352408, 1899447441, 3049323471, 3921009573, 961987163, 1508970993,
   2453635748, 2870763221, 3624381080, 310598401, 607225278, 1426881987,
   1925078388, 2162078206, 2614888103, 3248222580, 3835390401, 4022224774,
   264347078, 604807628, 770255983, 1249150122, 1555081692, 1996064986,
   2554220882, 2821834349, 2952996808, 3210313671, 3336571891, 3584528711,
   113926993, 338241895, 666307205, 773529912, 1294757372, 1396182291,
   1695183700, 1986661051, 2177026350, 2456956037, 2730485921, 2820302411,
   3259730800, 3345764771, 3516065817, 3600352804, 4094571909, 275423344,
   430227734, 506948616, 659060556, 883997877, 958139571, 1322822218,
   1537002063, 1747873779, 1955562222, 2024104815, 2227730452, 2361852424,
   2428436474, 2756734187, 3204031479, 3329325298]

/-- Bitwise complement on a 32-bit word (JS `~e` followed by masking uses). -/
def not32 (n : Nat) : Nat := Nat.xor n 0xffffffff

/-- The padded message: original bytes, `0x80`, zeros, then the length
field written exactly as the source's loop does —
`padded[paddedLen - 1 - i] = (bitLen >>> ((i * 8) % 32)) & 0xff` for
`i = 0..7` (JS masks the shift count to five bits). -/
def padMessage (bytes : List Nat) : List Nat :=
  let msgLen := bytes.length
  let bitLen := msgLen * 8
  let paddedLen := ((msgLen + 9 + 63) / 64) * 64
  let zeros := List.replicate (paddedLen - msgLen - 9) 0
  let lenBytes := (List.range 8).map
    (fun j => (bitLen >>> (((7 - j) * 8) % 32)) &&& 0xff)
  bytes ++ [0x80] ++ zeros ++ lenBytes

/-- The first sixteen 32-bit big-endian words of one 64-byte chunk. -/
def chunkWords (chunk : List Nat) : List Nat :=
  (List.range 16).map (fun i =>
    ((chunk.getD (i * 4) 0) <<< 24 ||| (chunk.getD (i * 4 + 1) 0) <<< 16 |||
     (chunk.getD (i * 4 + 2) 0) <<< 8 ||| chunk.getD (i * 4 + 3) 0) % 4294967296)

/-- Extends the message schedule by `fuel` further words. -/
def extendSchedule : List Nat → Nat → List Nat
  | w, 0 => w
  | w, fuel + 1 =>
    let i := w.length
    let w15 := w.getD (i - 15) 0
    let w2 := w.getD (i - 2) 0
    let s0 := Nat.xor (Nat.xor (rotr w15 7) (rotr w15 18)) (w15 >>> 3)
    let s1 := Nat.xor (Nat.xor (rotr w2 17) (rotr w2 19)) (w2 >>> 10)
    let wi := (w.getD (i - 16) 0 + s0 + w.getD (i - 7) 0 + s1) % 4294967296
    extendSchedule (w ++ [wi]) fuel

/-- One round of the main compression loop, acting on the working variables
`(a, b, c, d, e, f, g, h)`. -/
def sha256Round (st : List Nat) (kw : Nat × Nat) : List Nat :=
  match st with
  | [a, b, c, d, e, f, g, h] =>
    let bigS1 := Nat.xor (Nat.xor (rotr e 6) (rotr e 11)) (rotr e 25)
    let ch := Nat.xor (e &&& f) (not32 e &&& g)
    let temp1 := (h + bigS1 + ch + kw.1 + kw.2) % 4294967296
    let bigS0 := Nat.xor (Nat.xor (rotr a 2) (rotr a 13)) (rotr a 22)
    let maj := Nat.xor (Nat.xor (a &&& b) (a &&& c)) (b &&& c)
    let temp2 := (bigS0 + maj) % 4294967296
    [(temp1 + temp2) % 4294967296, a, b, c, (d + temp1) % 4294967296, e, f, g]
  | other => other

/-- Processes one 64-byte chunk, updating the eight hash words. -/
def sha256Chunk (hs : List Nat) (chunk : List Nat) : List Nat :=
  let w := extendSchedule (chunkWords chunk) 48
  let st := (sha256K.zip w).foldl sha256Round hs
  (hs.zip st).map (fun p => (p.1 + p.2) % 4294967296)

/-- Splits the padded message into 64-byte chunks.  The fuel (the list
length) bounds the recursion structurally and is never exhausted, since
every step consumes 64 bytes. -/
def toChunksFuel : Nat → List Nat → List (List Nat)
  | _, [] => []
  | 0, _ => []
  | fuel + 1, b :: bs => (b :: bs).take 64 :: toChunksFuel fuel ((b :: bs).drop 64)

def toChunks (l : List Nat) : List (List Nat) := toChunksFuel l.length l

/-- Lowercase hexadecimal digit. -/
def hexDigit (n : Nat) : Char :=
  if n < 10 then Char.ofNat (48 + n) else Char.ofNat (87 + n)

/-- `h.toString(16).padStart(8, '0')` for a 32-bit word. -/
def hex8 (n : Nat) : String :=
  String.mk ((List.range 8).map (fun i => hexDigit ((n >>> ((7 - i) * 4)) &&& 0xf)))

/-- `sha256Pure` / the exported `sha256` from `src/export/hash.ts`. -/
def sha256 (text : String) : String :=
  let bytes := stringToUtf8Bytes text
  let h0 : List Nat := [1779033703, 3144134277, 1013904242, 2773480762,
                        1359893119, 2600822924, 528734635, 1541459225]
  let hs := (toChunks (padMessage bytes)).foldl sha256Chunk h0
  String.join (hs.map hex8)

end Figgit

namespace Figgit

/-! ### String helpers shared by the slug/path utilities -/

/-- The JS regex class matching a whitespace character. -/
def jsIsWhitespace (c : Char) : Bool :=
  c = ' ' || c = '\t' || c = '\n' || c = '\r' || c = (Char.ofNat 0x0b) ||
  c = (Char.ofNat 0x0c) || c = (Char.ofNat 0xa0) || c = (Char.ofNat 0x1680) ||
  (0x2000 ≤ c.toNat && c.toNat ≤ 0x200a) || c = (Char.ofNat 0x2028) ||
  c = (Char.ofNat 0x2029) || c = (Char.ofNat 0x202f) || c = (Char.ofNat 0x205f) ||
  c = (Char.ofNat 0x3000) || c = (Char.ofNat 0xfeff)

/-- `String.prototype.toLowerCase`, modelled character-wise (ASCII case
mapping; every name any theorem evaluates is ASCII). -/
def jsToLowerStr (s : String) : String := String.mk (s.toList.map Char.toLower)

/-- `String.prototype.trim`. -/
def jsTrim (s : String) : String :=
  String.mk (((s.toList.dropWhile jsIsWhitespace).reverse.dropWhile jsIsWhitespace).reverse)

/-- `replace(/X+/g, "r")` for a character class `X`: each maximal run of
matching characters becomes the single replacement character.  `inRun`
tracks whether the previous character matched. -/
def collapseRuns (p : Char → Bool) (rep : Char) : Bool → List Char → List Char
  | _, [] => []
  | inRun, c :: cs =>
    if p c then
      (if inRun then [] else [rep]) ++ collapseRuns p rep true cs
    else c :: collapseRuns p rep false cs

/-- `replace(/\s+/g, '-')`: each maximal whitespace run becomes one hyphen. -/
def jsReplaceWsRuns (s : String) : String :=
  String.mk (collapseRuns jsIsWhitespace '-' false s.toList)

/-- The character class `[a-z0-9-]`. -/
def isSlugChar (c : Char) : Bool :=
  (97 ≤ c.toNat && c.toNat ≤ 122) || (48 ≤ c.toNat && c.toNat ≤ 57) || c = '-'

/-- `replace(/[^a-z0-9-]/g, '')`. -/
def jsStripNonSlug (s : String) : String := String.mk (s.toList.filter isSlugChar)

/-! ### `src/util/slugify.ts` -/

/-- The character class `[a-z0-9]`. -/
def isLowerAlnum (c : Char) : Bool :=
  (97 ≤ c.toNat && c.toNat ≤ 122) || (48 ≤ c.toNat && c.toNat ≤ 57)

/-- `slugify` from `src/util/slugify.ts`: trim, lower-case, collapse runs of
non-alphanumerics (`/[^a-z0-9]+/g`) into hyphens, strip leading/trailing
hyphens, and fall back when nothing is left. -/
def slugify (value fallback : String) : String :=
  let base := String.mk
    (collapseRuns (fun c => ¬ isLowerAlnum c) '-' false (jsToLowerStr (jsTrim value)).toList)
  let cleaned := String.mk
    (((base.toList.dropWhile (fun c => c = '-')).reverse.dropWhile (fun c => c = '-')).reverse)
  if cleaned ≠ "" then cleaned else fallback

/-! ### `src/util/path.ts` -/

/-- `normalizeFolder` from `src/util/path.ts`.  `none` models an absent
(`undefined`) folder setting; the falsy guard also maps `""` to `""`.
The source strips leading/trailing slashes BEFORE trimming whitespace;
that order is preserved. -/
def normalizeFolder (folder : Option String) : String :=
  match folder with
  | none => ""
  | some f =>
    if f = "" then ""
    else
      let replaced := collapseRuns (fun c => c = '\\') '/' false f.toList
      let noLead := replaced.dropWhile (fun c => c = '/')
      let noTrail := (noLead.reverse.dropWhile (fun c => c = '/')).reverse
      jsTrim (String.mk noTrail)

/-- `buildRepoPath` from `src/util/path.ts`. -/
def buildRepoPath (folder : Option String) (filename : String) : String :=
  let normalizedFolder := normalizeFolder folder
  if normalizedFolder ≠ "" then normalizedFolder ++ "/" ++ filename else filename

end Figgit

namespace Figgit

/-! ### Retry with exponential backoff (`src/util/retry.ts`)

`withRetry` is an async loop whose only effects are calls to the wrapped
function and `setTimeout` delays.  It is modelled as a pure function over a
`script` giving the outcome of each attempt (numbered from 1, as in the
source); the returned list records the delays the loop awaited, in order.
Errors are identified with their message strings. -/

/-- Whether `sub` is a prefix of the second list. -/
def listStartsWith [DecidableEq α] : List α → List α → Bool
  | [], _ => true
  | _ :: _, [] => false
  | a :: as, b :: bs => if a = b then listStartsWith as bs else false

/-- Whether `sub` occurs as a contiguous segment of the second list. -/
def listHasInfix [DecidableEq α] (sub : List α) : List α → Bool
  | [] => sub.isEmpty
  | x :: xs => listStartsWith sub (x :: xs) || listHasInfix sub xs

/-- `a.includes(b)` on strings. -/
def strContains (s sub : String) : Bool := listHasInfix sub.toList s.toList

/-- `defaultShouldRetry` from `src/util/retry.ts`: case-insensitive substring
matching on the error message, in source order. -/
def defaultShouldRetry (message : String) (_attempt : Nat) : Bool :=
  let errorMsg := jsToLowerStr message
  if strContains errorMsg "network" || strContains errorMsg "fetch" ||
      strContains errorMsg "timeout" || strContains errorMsg "econnrefused" then true
  else if strContains errorMsg "50" || strContains errorMsg "429" ||
      strContains errorMsg "rate limit" then true
  else if strContains errorMsg "409" || strContains errorMsg "conflict" then true
  else if strContains errorMsg "401" || strContains errorMsg "403" ||
      strContains errorMsg "404" || strContains errorMsg "422" ||
      strContains errorMsg "unauthorized" || strContains errorMsg "forbidden" ||
      strContains errorMsg "not found" then false
  else true

/-- Options of `withRetry`, with the source's defaults filled in by callers. -/
structure RetryOptions where
  maxAttempts : Nat
  initialDelay : Nat
  maxDelay : Nat
  backoffMultiplier : Nat
  shouldRetry : String → Nat → Bool

/-- The attempt loop of `withRetry`, driven by the list of remaining attempt
numbers (`[attempt .. maxAttempts]`).  On failure: rethrow when the attempt
count has reached `maxAttempts` (no attempts left), otherwise consult
`shouldRetry`, await `currentDelay`, multiply it (capped at `maxDelay`) and
try again.  The empty-list case is reached only with `maxAttempts = 0`,
where the JS loop body never runs and the function throws its (undefined)
`lastError`, modelled as the error `"undefined"`. -/
def withRetryGo (script : Nat → Except String α) (shouldRetry : String → Nat → Bool)
    (mult maxDelay : Nat) :
    List Nat → Nat → List Nat → Except String α × List Nat
  | [], _, delays => (.error "undefined", delays)
  | attempt :: rest, currentDelay, delays =>
    match script attempt with
    | .ok v => (.ok v, delays)
    | .error e =>
      match rest with
      | [] => (.error e, delays)
      | _ :: _ =>
        if ¬ shouldRetry e attempt then (.error e, delays)
        else
          withRetryGo script shouldRetry mult maxDelay rest
            (min (currentDelay * mult) maxDelay) (delays ++ [currentDelay])

/-- `withRetry` from `src/util/retry.ts`: attempts numbered 1 through
`maxAttempts`. -/
def withRetry (script : Nat → Except String α) (opts : RetryOptions) :
    Except String α × List Nat :=
  withRetryGo script opts.shouldRetry opts.backoffMultiplier opts.maxDelay
    (List.range' 1 opts.maxAttempts) opts.initialDelay []

end Figgit

namespace Figgit

/-! ### Value normalization (`src/export/valueNormalization.ts`,
duplicated verbatim inside `buildDtcgJson.ts`) and
`src/util/dtcgUtils.ts` / `src/util/colorUtils.ts` -/

/-- The payload of a normalized mode value
(`string | number | boolean | {r,g,b,a}`). -/
inductive MVVal where
  | str (s : String)
  | num (q : Rat)
  | bool (b : Bool)
  | rgba (r g b a : Rat)
deriving DecidableEq

/-- `VariableModeValue` from `src/util/dtcgUtils.ts`.  The `type` field is a
string, mirroring the TS string-literal union (the converter has a fallback
branch for unexpected tags). -/
structure VariableModeValue where
  type : String
  value : Option MVVal
  refVariableId : Option String
deriving DecidableEq

/-- The JS value a payload denotes (used by the converter's lenient
fallback branch, which returns the payload verbatim). -/
def mvValToJVal : MVVal → JVal
  | .str s => .str s
  | .num q => .num q
  | .bool b => .bool b
  | .rgba r g b a => .obj [("r", .num r), ("g", .num g), ("b", .num b), ("a", .num a)]

/-- `typeof raw === 'object'` (true for objects, arrays and `null`). -/
def isJsObject : JVal → Bool
  | .obj _ => true
  | .arr _ => true
  | .null => true
  | _ => false

/-- `inferPrimitive`: dispatch on the primitive JS type, falling back to the
string coercion for anything else (only `null` and non-alias non-color
objects reach the fallback). -/
def inferPrimitive : JVal → VariableModeValue
  | .str s => ⟨"STRING", some (.str s), none⟩
  | .num q => ⟨"NUMBER", some (.num q), none⟩
  | .bool b => ⟨"BOOLEAN", some (.bool b), none⟩
  | v => ⟨"STRING", some (.str (jsToString v)), none⟩

/-- `normalizeModeValue`: alias-shape check first, then color-shape check,
then the primitive fallback — in exactly that order. -/
def normalizeModeValue (raw : JVal) : VariableModeValue :=
  if ¬ jsTruthy raw || ¬ isJsObject raw then inferPrimitive raw
  else
    match objGet raw "type", objGet raw "id" with
    | some (.str "VARIABLE_ALIAS"), some (.str i) => ⟨"ALIAS", none, some i⟩
    | _, _ =>
      match objGet raw "r", objGet raw "g", objGet raw "b" with
      | some (.num r), some (.num g), some (.num b) =>
        ⟨"COLOR",
          some (.rgba r g b (match objGet raw "a" with | some (.num a) => a | _ => 1)),
          none⟩
      | _, _, _ => inferPrimitive raw

/-- `Math.round` (half toward positive infinity), exact on rationals. -/
def jsRound (q : Rat) : Int := round q

/-- `componentToHex` from `src/util/colorUtils.ts`: clamp to `[0,1]`, scale
to `[0,255]`, render as two lowercase hex digits. -/
def componentToHex (component : Rat) : String :=
  let clamped := max 0 (min 1 component)
  let scaled := (jsRound (clamped * 255)).toNat
  String.mk [hexDigit (scaled / 16), hexDigit (scaled % 16)]

/-- `rgbToHex` from `src/util/colorUtils.ts`. -/
def rgbToHex (r g b : Rat) : String :=
  "#" ++ componentToHex r ++ componentToHex g ++ componentToHex b

/-- `convertColorToDtcg` from `src/util/colorUtils.ts`.  The normalizer
always supplies a numeric alpha, so `a ?? 1` is just `a`. -/
def convertColorToDtcg (r g b a : Rat) : JVal :=
  .obj [("colorSpace", .str "srgb"),
        ("components", .arr [.num r, .num g, .num b]),
        ("alpha", .num a),
        ("hex", .str (rgbToHex r g b))]

/-- The dimension keyword list of `shouldBeDimension`. -/
def dimensionKeywords : List String :=
  ["width", "height", "size", "padding", "margin", "spacing", "gap", "radius",
   "border", "offset", "top", "bottom", "left", "right", "inset", "stroke", "corner"]

def isCoordBoundary (c : Char) : Bool := c = '-' || c = '_'

/-- The regex `/(?:^|[-_])([xy])(?:[-_]|$)/i`: scans for an `x`/`y` (either
case) that is delimited by `-`/`_` or the ends of the string. -/
def coordAux : Bool → List Char → Bool
  | _, [] => false
  | atBoundary, c :: rest =>
    if atBoundary && (c.toLower = 'x' || c.toLower = 'y') &&
        (match rest with | [] => true | d :: _ => isCoordBoundary d) then true
    else coordAux (isCoordBoundary c) rest

/-- `shouldBeDimension` from `src/util/dtcgUtils.ts`. -/
def shouldBeDimension (figmaType variableName : String) : Bool :=
  if figmaType ≠ "FLOAT" then false
  else
    let lowerName := jsToLowerStr variableName
    if dimensionKeywords.any (fun keyword => strContains lowerName keyword) then true
    else coordAux true variableName.toList

/-- `convertToDimension` from `src/util/dtcgUtils.ts`. -/
def convertToDimension (value : Rat) : JVal :=
  .obj [("value", .num value), ("unit", .str "px")]

/-- `mapFigmaTypeToDtcg` from `src/util/dtcgUtils.ts`. -/
def mapFigmaTypeToDtcg (figmaType variableName : String) : String :=
  if figmaType = "COLOR" then "color"
  else if figmaType = "FLOAT" then
    if shouldBeDimension figmaType variableName then "dimension" else "number"
  else if figmaType = "STRING" then
    if strContains (jsToLowerStr variableName) "font" then "fontFamily" else "string"
  else if figmaType = "BOOLEAN" then "boolean"
  else "string"

/-- `buildTokenPath` from `src/util/dtcgUtils.ts`: a variable name containing
a dot is used as-is; otherwise collection and variable names are each
lower-cased, whitespace runs become hyphens, characters outside `[a-z0-9-]`
are removed, and the two segments are joined with a dot. -/
def buildTokenPath (collectionName variableName : String) : String :=
  if variableName.toList.contains '.' then variableName
  else
    let collectionSegment := jsStripNonSlug (jsReplaceWsRuns (jsToLowerStr collectionName))
    let variableSegment := jsStripNonSlug (jsReplaceWsRuns (jsToLowerStr variableName))
    collectionSegment ++ "." ++ variableSegment

/-- `setNestedValue` from `src/util/dtcgUtils.ts`, on the path already split
at dots.  The source replaces a falsy or non-object intermediate with a
fresh `{}`; here only a plain object survives as an intermediate (the one
case that differs — descending into an array — cannot occur in this program,
where interior path nodes are only group objects). -/
def setNested : List (String × JVal) → List String → JVal → List (String × JVal)
  | ps, [], _ => ps
  | ps, [k], v => objSet ps k v
  | ps, k :: k₂ :: rest, v =>
    let child : List (String × JVal) :=
      match List.lookup k ps with
      | some (.obj qs) => qs
      | _ => []
    objSet ps k (.obj (setNested child (k₂ :: rest) v))

/-- `String.prototype.split` with a one-character separator (the program
only splits on `'.'` and `'/'`). -/
def splitOnChar (sep : Char) : List Char → List Char → List String
  | [], acc => [String.mk acc.reverse]
  | x :: xs, acc =>
    if x = sep then String.mk acc.reverse :: splitOnChar sep xs []
    else splitOnChar sep xs (x :: acc)

def jsSplit (s : String) (sep : Char) : List String := splitOnChar sep s.toList []

/-- `setNestedValue(obj, path, value)`. -/
def setNestedValue (ps : List (String × JVal)) (path : String) (value : JVal) :
    List (String × JVal) :=
  setNested ps (jsSplit path '.') value

/-- The message of the unresolved-alias error. -/
def aliasErrorMessage (refVariableId : String) : String :=
  "Cannot resolve alias: variable ID \"" ++ refVariableId ++ "\" not found in path map"

/-- `convertAliasToDtcg` from `src/util/dtcgUtils.ts`.  The source throws
when the looked-up path is falsy: both a missing entry and an empty-string
entry raise the unresolved-alias error. -/
def convertAliasToDtcg (refVariableId : String)
    (variablePathMap : List (String × String)) : Except String String :=
  match List.lookup refVariableId variablePathMap with
  | some path =>
    if path = "" then .error (aliasErrorMessage refVariableId)
    else .ok ("\x7b" ++ path ++ "\x7d")
  | none => .error (aliasErrorMessage refVariableId)

/-- The `switch (modeValue.type)` of `convertValue`. -/
def convertValueSwitch (modeValue : VariableModeValue)
    (figmaType variableName : String) : Except String JVal :=
  if modeValue.type = "COLOR" then
    match modeValue.value with
    | some (.rgba r g b a) => .ok (convertColorToDtcg r g b a)
    | _ => .error ("Invalid color value for variable " ++ variableName)
  else if modeValue.type = "NUMBER" then
    match modeValue.value with
    | some (.num n) =>
      if shouldBeDimension figmaType variableName then .ok (convertToDimension n)
      else .ok (.num n)
    | _ => .error ("Invalid number value for variable " ++ variableName)
  else if modeValue.type = "STRING" then
    match modeValue.value with
    | some (.str s) => .ok (.str s)
    | _ => .error ("Invalid string value for variable " ++ variableName)
  else if modeValue.type = "BOOLEAN" then
    match modeValue.value with
    | some (.bool b) => .ok (.bool b)
    | _ => .error ("Invalid boolean value for variable " ++ variableName)
  else
    match modeValue.value with
    | some v => .ok (mvValToJVal v)
    | none => .error ("Missing value for variable " ++ variableName)

/-- `convertValue` from `src/util/dtcgUtils.ts`: the alias branch is taken
only when `refVariableId` is a truthy (nonempty) string; otherwise the typed
switch runs. -/
def convertValue (modeValue : VariableModeValue) (figmaType variableName : String)
    (variablePathMap : List (String × String)) : Except String JVal :=
  match modeValue.refVariableId with
  | some r =>
    if modeValue.type = "ALIAS" ∧ r ≠ "" then
      (convertAliasToDtcg r variablePathMap).map JVal.str
    else convertValueSwitch modeValue figmaType variableName
  | none => convertValueSwitch modeValue figmaType variableName

end Figgit

namespace Figgit

/-! ### Host data model and the DTCG document builder
(`src/export/buildDtcgJson.ts`) -/

/-- A collection mode (`{modeId, name}`; the native builder also reads an
optional description). -/
structure CollectionMode where
  modeId : String
  name : String
  description : Option String

/-- A variable collection snapshot from the host API. -/
structure VariableCollection where
  id : String
  name : String
  modes : List CollectionMode
  description : Option String

/-- A variable snapshot from the host API.  `valuesByMode` is an
insertion-ordered map from mode id to the raw JS value.  `scopes` is `none`
when the host supplies a non-array; `codeSyntax` is `none` when absent. -/
structure FigVariable where
  id : String
  name : String
  variableCollectionId : String
  resolvedType : String
  valuesByMode : List (String × JVal)
  description : Option String
  scopes : Option (List String)
  codeSyntax : Option (List (String × String))
  hiddenFromPublishing : Bool

/-- Outcome of `figma.variables.getVariableByIdAsync` for one id: the
promise rejects (`throws`), resolves with `null` (`missing`), or resolves
with a variable (`found`). -/
inductive FetchResult where
  | throws
  | missing
  | found (id name : String)

/-- The inputs a builder reads from the host: collections, variables, the
document name, the export timestamp (`new Date().toISOString()`), and the
fetch-by-id oracle for alias targets outside the local set. -/
structure ExportInput where
  collections : List VariableCollection
  allVariables : List FigVariable
  rootName : String
  exportedAt : String
  fetchVariableById : String → FetchResult

/-- `Map.set` on a string-keyed JS map: existing keys keep their position,
new keys are appended (JS maps iterate in insertion order). -/
def mapSet (m : List (String × α)) (k : String) (v : α) : List (String × α) :=
  match m with
  | [] => [(k, v)]
  | (k₁, v₁) :: ps => if k₁ = k then (k₁, v) :: ps else (k₁, v₁) :: mapSet ps k v

/-- Phase 1 of `buildDtcgJson`: the local variable-id → token-path map. -/
def buildLocalPathMap (collections : List VariableCollection)
    (allVars : List FigVariable) : List (String × String) :=
  allVars.foldl
    (fun m vr =>
      match collections.find? (fun c => c.id = vr.variableCollectionId) with
      | none => m
      | some collection => mapSet m vr.id (buildTokenPath collection.name vr.name))
    []

/-- One raw mode value of phase 1b: record an alias target that is not a
local variable, deduplicating (insertion-ordered JS `Set`). -/
def addRemoteId (pathMap : List (String × String)) (acc : List String)
    (raw : JVal) : List String :=
  let normalized := normalizeModeValue raw
  match normalized.refVariableId with
  | some r =>
    if normalized.type = "ALIAS" ∧ r ≠ "" then
      if (List.lookup r pathMap).isNone then
        if acc.contains r then acc else acc ++ [r]
      else acc
    else acc
  | none => acc

/-- Phase 1b of `buildDtcgJson`: the unique external alias-target ids, in
first-occurrence order. -/
def collectRemoteIds (pathMap : List (String × String))
    (allVars : List FigVariable) : List String :=
  allVars.foldl
    (fun acc vr => vr.valuesByMode.foldl (fun a p => addRemoteId pathMap a p.2) acc)
    []

/-- One step of the remote-variable fetch loop of `buildDtcgJson`: a fetched
variable contributes `external.<name with whitespace runs hyphenated,
lower-cased>`; a rejected fetch contributes the deterministic fallback
`external.unknown-<first 8 chars of the id>`; a `null` result contributes
nothing (only the `catch` block writes the fallback). -/
def resolveStep (fetch : String → FetchResult) (m : List (String × String))
    (remoteId : String) : List (String × String) :=
  match fetch remoteId with
  | .throws => mapSet m remoteId ("external.unknown-" ++ remoteId.take 8)
  | .missing => m
  | .found vid name => mapSet m vid ("external." ++ jsToLowerStr (jsReplaceWsRuns name))

/-- The remote-variable fetch loop over all collected external ids. -/
def resolveRemotePaths (fetch : String → FetchResult)
    (m : List (String × String)) (ids : List String) : List (String × String) :=
  ids.foldl (resolveStep fetch) m

/-- The per-mode loop filling `$extensions."com.figma".modes`, keyed by mode
display name.  Falsy raw values are skipped exactly like the primary mode. -/
def buildModeValues (pathMap : List (String × String)) (vr : FigVariable)
    (tokenPath : String) :
    List CollectionMode → List (String × JVal) → Except String (List (String × JVal))
  | [], acc => .ok acc
  | mode :: rest, acc =>
    match List.lookup mode.modeId vr.valuesByMode with
    | none => buildModeValues pathMap vr tokenPath rest acc
    | some raw =>
      if ¬ jsTruthy raw then buildModeValues pathMap vr tokenPath rest acc
      else
        match convertValue (normalizeModeValue raw) vr.resolvedType tokenPath pathMap with
        | .error e => .error e
        | .ok v => buildModeValues pathMap vr tokenPath rest (objSet acc mode.name v)

/-- Phase 2 of `buildDtcgJson`, one variable: skip when the collection or
token path is missing, or when the first mode's raw value is absent or
falsy; otherwise convert the primary value, convert every mode value into
the extension block, and insert the token at its dot-path. -/
def buildTokensStep (collections : List VariableCollection)
    (pathMap : List (String × String)) (tokens : List (String × JVal))
    (vr : FigVariable) : Except String (List (String × JVal)) :=
  match collections.find? (fun c => c.id = vr.variableCollectionId) with
  | none => .ok tokens
  | some collection =>
    match List.lookup vr.id pathMap with
    | none => .ok tokens
    | some tokenPath =>
      if tokenPath = "" then .ok tokens
      else
        let dtcgType := mapFigmaTypeToDtcg vr.resolvedType tokenPath
        let primaryModeValue : Option JVal :=
          match collection.modes with
          | [] => none
          | m₀ :: _ => List.lookup m₀.modeId vr.valuesByMode
        match primaryModeValue with
        | none => .ok tokens
        | some raw =>
          if ¬ jsTruthy raw then .ok tokens
          else
            match convertValue (normalizeModeValue raw) vr.resolvedType tokenPath pathMap with
            | .error e => .error e
            | .ok primaryValue =>
              match buildModeValues pathMap vr tokenPath collection.modes [] with
              | .error e => .error e
              | .ok modeValues =>
                let token₀ : List (String × JVal) :=
                  [("$value", primaryValue), ("$type", .str dtcgType)]
                let token₁ :=
                  match vr.description with
                  | some d =>
                    if jsTrim d ≠ "" then objSet token₀ "$description" (.str (jsTrim d))
                    else token₀
                  | none => token₀
                let ext : JVal := .obj [("com.figma", .obj
                  [("modes", .obj modeValues),
                   ("scopes", .arr ((vr.scopes.getD []).map JVal.str)),
                   ("codeSyntax", .obj
                     ((vr.codeSyntax.getD []).map (fun p => (p.1, JVal.str p.2)))),
                   ("hiddenFromPublishing", .bool vr.hiddenFromPublishing)])]
                let token₂ := objSet token₁ "$extensions" ext
                .ok (setNestedValue tokens tokenPath (.obj token₂))

/-- Phase 2 of `buildDtcgJson` over a variable list, threading the token
tree through `buildTokensStep` and propagating the first thrown error. -/
def buildTokensFrom (collections : List VariableCollection)
    (pathMap : List (String × String)) :
    List FigVariable → List (String × JVal) → Except String (List (String × JVal))
  | [], tokens => .ok tokens
  | vr :: rest, tokens =>
    match buildTokensStep collections pathMap tokens vr with
    | .error e => .error e
    | .ok tokens₂ => buildTokensFrom collections pathMap rest tokens₂

/-- Phase 2 of `buildDtcgJson` over the whole variable list. -/
def buildTokens (collections : List VariableCollection)
    (pathMap : List (String × String)) (vars : List FigVariable) :
    Except String (List (String × JVal)) :=
  buildTokensFrom collections pathMap vars []

/-- `PLUGIN_VERSION` as hard-coded in `buildDtcgJson.ts`. -/
def dtcgPluginVersion : String := "0.2.0"

/-- The body of `buildDtcgJson`'s `try` block: phases 1–4.  The content hash
covers the token tree only — the root `$extensions` metadata block (with its
volatile `exportedAt`) is excluded from its own hash's input. -/
def buildDtcgRoot (inp : ExportInput) : Except String JVal :=
  let pathMap₀ := buildLocalPathMap inp.collections inp.allVariables
  let remoteIds := collectRemoteIds pathMap₀ inp.allVariables
  let pathMap := resolveRemotePaths inp.fetchVariableById pathMap₀ remoteIds
  match buildTokens inp.collections pathMap inp.allVariables with
  | .error e => .error e
  | .ok tokens =>
    let contentHash := sha256 (stableStringify (.obj tokens) 2)
    let meta : JVal := .obj [("com.figma", .obj
      [("exportedAt", .str inp.exportedAt),
       ("fileName", .str inp.rootName),
       ("pluginVersion", .str dtcgPluginVersion),
       ("collectionsCount", .num (inp.collections.length : Rat)),
       ("variablesCount", .num (inp.allVariables.length : Rat)),
       ("contentHash", .str contentHash)])]
    .ok (.obj (objSet tokens "$extensions" meta))

/-- `buildDtcgJson` from `src/export/buildDtcgJson.ts`: any build-time error
is re-surfaced as one wrapped error carrying the original message. -/
def buildDtcgJson (inp : ExportInput) : Except String JVal :=
  match buildDtcgRoot inp with
  | .ok root => .ok root
  | .error e => .error ("Failed to build DTCG JSON: " ++ e)

end Figgit

namespace Figgit

/-! ### Native document builder (`src/export/buildFigmaNativeExport.ts`) -/

/-- Modelled from the spec: the plugin's version string exported by the
`constants` module, which is not among the provided sources; only its
presence as inert metadata matters (spec §3: metadata is excluded from
content hashing).  The DTCG builder hard-codes the same version. -/
def pluginVersionConst : String := "0.2.0"

/-- Comparison of two values by a string projection (models a JS sort
comparator built from `localeCompare` or default string order; both are
modelled as code-point order). -/
def byStr (f : α → String) (a b : α) : Prop := f a ≤ f b

instance (f : α → String) : DecidableRel (byStr f) :=
  fun a b => inferInstanceAs (Decidable (f a ≤ f b))

instance (f : α → String) : IsTotal α (byStr f) := ⟨fun a b => le_total (f a) (f b)⟩

instance (f : α → String) : IsTrans α (byStr f) := ⟨fun _ _ _ h₁ h₂ => le_trans h₁ h₂⟩

/-- One `valueByMode` record: `{value, referencedVariableId?,
referencedVariableName?}`. -/
structure ValueByModeEntry where
  value : JVal
  referencedVariableId : Option String
  referencedVariableName : Option String

/-- A `FigmaNativeVariable` node.  Optional fields are `none` exactly when
the source leaves them `undefined` (or deletes them), so serialization can
omit them. -/
structure NativeVariable where
  id : String
  name : String
  path : String
  type : String
  description : Option String
  scopes : Option (List String)
  codeSyntax : Option (List (String × String))
  aliases : Option (List String)
  hiddenFromPublishing : Option Bool
  valueByMode : List (String × ValueByModeEntry)

/-- A `FigmaNativeGroup` node (recursive, hence an inductive).  The field
holding the group's variables is called `vars` here because `variables` is a
reserved word in Lean; it models the source's `variables` field. -/
inductive NativeGroup where
  | mk (id name path : String) (groups : List NativeGroup)
      (vars : List NativeVariable)

def NativeGroup.id : NativeGroup → String
  | .mk i _ _ _ _ => i

def NativeGroup.name : NativeGroup → String
  | .mk _ n _ _ _ => n

def NativeGroup.path : NativeGroup → String
  | .mk _ _ p _ _ => p

def NativeGroup.groups : NativeGroup → List NativeGroup
  | .mk _ _ _ gs _ => gs

def NativeGroup.vars : NativeGroup → List NativeVariable
  | .mk _ _ _ _ vs => vs

/-- `Array.from(new Set(xs))`: deduplication keeping first occurrences. -/
def jsSetDedup (l : List String) : List String :=
  l.foldl (fun acc s => if acc.contains s then acc else acc ++ [s]) []

/-- `getVariableSegments`: split on `/`, trim each segment, drop empties. -/
def getVariableSegments (name : String) : List String :=
  ((jsSplit name '/').map jsTrim).filter (fun s => s ≠ "")

/-- `mapVariableType` from the native builder. -/
def mapVariableType (resolvedType : String) : String :=
  if resolvedType = "COLOR" then "color"
  else if resolvedType = "BOOLEAN" then "boolean"
  else if resolvedType = "STRING" then "string"
  else "number"

/-- `ensureJsonExtension` from the native builder. -/
def ensureJsonExtension (name : String) : String :=
  if name = "" then "variables.json"
  else if listStartsWith ".json".toList.reverse (jsToLowerStr name).toList.reverse then name
  else name ++ ".json"

/-- `buildAliasSources`: for every alias value, append the referring
variable's id under the alias-target id. -/
def buildAliasSources (vars : List FigVariable) : List (String × List String) :=
  vars.foldl
    (fun m vr =>
      vr.valuesByMode.foldl
        (fun m₂ p =>
          let normalized := normalizeModeValue p.2
          match normalized.refVariableId with
          | some r =>
            if normalized.type = "ALIAS" ∧ r ≠ "" then
              mapSet m₂ r (((List.lookup r m₂).getD []) ++ [vr.id])
            else m₂
          | none => m₂)
        m)
    []

/-- The alias-target ids of `resolveRemoteVariableNames` that are not local
variable ids, deduplicated in first-occurrence order. -/
def collectNativeRemoteIds (variablesById : List (String × FigVariable))
    (vars : List FigVariable) : List String :=
  vars.foldl
    (fun acc vr =>
      vr.valuesByMode.foldl
        (fun a p =>
          let normalized := normalizeModeValue p.2
          match normalized.refVariableId with
          | some r =>
            if normalized.type = "ALIAS" ∧ r ≠ "" then
              if (List.lookup r variablesById).isNone then
                if a.contains r then a else a ++ [r]
              else a
            else a
          | none => a)
        acc)
    []

/-- `resolveRemoteVariableNames`: one fetch per unique external id; a
resolved variable records its display name under the requested id; a
rejected or `null` fetch records nothing. -/
def resolveRemoteVariableNames (fetch : String → FetchResult)
    (variablesById : List (String × FigVariable)) (vars : List FigVariable) :
    List (String × String) :=
  (collectNativeRemoteIds variablesById vars).foldl
    (fun m id =>
      match fetch id with
      | .found _ name => mapSet m id name
      | _ => m)
    []

/-- `Number(a.toFixed(3))`: the alpha rounded to three decimals (JS rounds
on the decimal expansion; exact here on rationals). -/
def toFixed3 (a : Rat) : Rat := (jsRound (a * 1000) : Rat) / 1000

/-- `colorToString` from the native builder: opaque colors render as hex,
others as an `rgba(...)` string. -/
def colorToString (r g b a : Rat) : String :=
  let hex := rgbToHex r g b
  if abs (a - 1) < (1 : Rat) / 10000 then hex
  else
    "rgba(" ++ toString (jsRound (r * 255)) ++ ", " ++ toString (jsRound (g * 255)) ++
      ", " ++ toString (jsRound (b * 255)) ++ ", " ++ renderNum (toFixed3 a) ++ ")"

/-- `buildModeValueEntry` from the native builder: a chain of shape-guarded
branches; anything unmatched yields `undefined` (`none`), which the caller
skips. -/
def buildModeValueEntry (modeValue : VariableModeValue)
    (variablesById : List (String × FigVariable))
    (remoteVariableNames : List (String × String)) : Option ValueByModeEntry :=
  match modeValue.type, modeValue.value, modeValue.refVariableId with
  | "COLOR", some (.rgba r g b a), _ => some ⟨.str (colorToString r g b a), none, none⟩
  | "STRING", some (.str s), _ => some ⟨.str s, none, none⟩
  | "NUMBER", some (.num n), _ => some ⟨.num n, none, none⟩
  | "BOOLEAN", some (.bool b), _ => some ⟨.bool b, none, none⟩
  | "ALIAS", _, some r =>
    if r ≠ "" then
      let referencedName : Option String :=
        match List.lookup r variablesById with
        | some rv => if rv.name ≠ "" then some rv.name else List.lookup r remoteVariableNames
        | none => List.lookup r remoteVariableNames
      let value : String :=
        match referencedName with
        | some n => if n ≠ "" then n else r
        | none => r
      some ⟨.str value, some r, referencedName⟩
    else none
  | _, _, _ => none

/-- The `valueByMode` loop of `buildVariableNode`: iterate the collection's
modes in order; an absent or falsy raw value is skipped, as is an
unrecognized shape (`buildModeValueEntry` returning `undefined`). -/
def buildValueByMode (variablesById : List (String × FigVariable))
    (remoteVariableNames : List (String × String)) (vr : FigVariable) :
    List CollectionMode → List (String × ValueByModeEntry) →
      List (String × ValueByModeEntry)
  | [], acc => acc
  | mode :: rest, acc =>
    match List.lookup mode.modeId vr.valuesByMode with
    | none => buildValueByMode variablesById remoteVariableNames vr rest acc
    | some raw =>
      if ¬ jsTruthy raw then buildValueByMode variablesById remoteVariableNames vr rest acc
      else
        match buildModeValueEntry (normalizeModeValue raw) variablesById remoteVariableNames with
        | none => buildValueByMode variablesById remoteVariableNames vr rest acc
        | some entry =>
          buildValueByMode variablesById remoteVariableNames vr rest
            (mapSet acc mode.modeId entry)

/-- `buildVariableNode` from the native builder. -/
def buildVariableNode (vr : FigVariable) (collection : VariableCollection)
    (variablesById : List (String × FigVariable))
    (aliasSources : List (String × List String))
    (remoteVariableNames : List (String × String))
    (nameSegments : List String) : NativeVariable :=
  let type := mapVariableType vr.resolvedType
  let scopes := vr.scopes.map jsSetDedup
  let codeSyntaxEntries := vr.codeSyntax.getD []
  let aliases := (List.lookup vr.id aliasSources).getD []
  let normalizedSegments :=
    if nameSegments ≠ [] then nameSegments
    else ([vr.name].map jsTrim).filter (fun s => s ≠ "")
  let variableName :=
    match normalizedSegments.getLast? with
    | some l => l
    | none => if jsTrim vr.name ≠ "" then jsTrim vr.name else vr.name
  let variablePath :=
    if normalizedSegments ≠ [] then String.intercalate "/" normalizedSegments
    else variableName
  let valueByMode := buildValueByMode variablesById remoteVariableNames vr collection.modes []
  { id := vr.id
    name := variableName
    path := variablePath
    type := type
    description := (vr.description.map jsTrim).bind (fun d => if d ≠ "" then some d else none)
    scopes := scopes
    codeSyntax := if codeSyntaxEntries ≠ [] then some codeSyntaxEntries else none
    aliases :=
      if aliases ≠ [] then
        some (List.insertionSort (byStr (fun s => s)) (aliases.map (fun aid =>
          match List.lookup aid variablesById with
          | some av => if av.name ≠ "" then av.name else aid
          | none => aid)))
      else none
    hiddenFromPublishing := if vr.hiddenFromPublishing then some true else none
    valueByMode := valueByMode }

end Figgit

namespace Figgit

/-- `insertIntoGroups` from the native builder, recast functionally: walk
the group segments, reusing the first group with a matching name at each
level (case-sensitive) and appending a fresh group otherwise; the variable
is pushed into the deepest segment's group.  `acc` carries the path
segments already consumed.  With no segments the source loop never runs and
the variable is pushed nowhere. -/
def insertIntoGroups (collectionId collectionName : String) (v : NativeVariable) :
    List String → List String → List NativeGroup → List NativeGroup
  | _, [], groups => groups
  | acc, seg :: rest, groups =>
    let acc₂ := acc ++ [seg]
    match groups with
    | [] =>
      let inner : List NativeGroup :=
        if rest = [] then [] else insertIntoGroups collectionId collectionName v acc₂ rest []
      let vars : List NativeVariable := if rest = [] then [v] else []
      [NativeGroup.mk (collectionId ++ ":" ++ String.intercalate "/" acc₂) seg
        (collectionName ++ "/" ++ String.intercalate "/" acc₂) inner vars]
    | g :: gs =>
      if g.name = seg then
        (if rest = [] then
          NativeGroup.mk g.id g.name g.path g.groups (g.vars ++ [v])
        else
          NativeGroup.mk g.id g.name g.path
            (insertIntoGroups collectionId collectionName v acc₂ rest g.groups) g.vars) :: gs
      else g :: insertIntoGroups collectionId collectionName v acc (seg :: rest) gs
termination_by acc segs groups => (segs.length, groups.length)
decreasing_by
  · simp only [List.length_cons]
    exact Prod.Lex.left _ _ (by omega)
  · simp only [List.length_cons]
    exact Prod.Lex.left _ _ (by omega)
  · exact Prod.Lex.right _ (by simp)

mutual

/-- `sortGroups` from the native builder: sort sibling groups by name,
rebuild each with recursively sorted child groups and path-sorted
variables.  The source sorts the input list first and then maps; sorting
after the per-element rebuild (below) produces the same list because the
rebuild preserves every group's name and the sort compares only names. -/
def sortGroups (groups : List NativeGroup) : List NativeGroup :=
  List.insertionSort (byStr NativeGroup.name) (sortGroupsRec groups)

def sortGroupsRec : List NativeGroup → List NativeGroup
  | [] => []
  | g :: gs => remapGroup g :: sortGroupsRec gs

def remapGroup : NativeGroup → NativeGroup
  | .mk i n p sub vs =>
    .mk i n p (sortGroups sub) (List.insertionSort (byStr NativeVariable.path) vs)

end

/-- `flattenGroupVariables` from the native builder: each group's variables,
then its subtree's, in order. -/
def flattenGroupVariables : List NativeGroup → List NativeVariable
  | [] => []
  | .mk _ _ _ gs vs :: rest =>
    vs ++ flattenGroupVariables gs ++ flattenGroupVariables rest

/-- A `FigmaNativeCollection` payload.  `vars` models the source's
`variables` field (`variables` is reserved in Lean). -/
structure NativeCollection where
  id : String
  name : String
  description : Option String
  modes : List CollectionMode
  groups : List NativeGroup
  vars : List NativeVariable
  collectionVariablesCount : Nat

/-- `buildCollectionPayload` from the native builder. -/
def buildCollectionPayload (collection : VariableCollection)
    (vars : List FigVariable) (variablesById : List (String × FigVariable))
    (aliasSources : List (String × List String))
    (remoteVariableNames : List (String × String)) : NativeCollection :=
  let step := fun (acc : List NativeVariable × List NativeGroup) (vr : FigVariable) =>
    let nameSegments := getVariableSegments vr.name
    let variableNode :=
      buildVariableNode vr collection variablesById aliasSources remoteVariableNames nameSegments
    let groupSegments := nameSegments.dropLast
    if groupSegments = [] then (acc.1 ++ [variableNode], acc.2)
    else (acc.1, insertIntoGroups collection.id collection.name variableNode [] groupSegments acc.2)
  let built := vars.foldl step ([], [])
  let sortedGroups := sortGroups built.2
  let groupedVariables := flattenGroupVariables sortedGroups
  let sortedVariables :=
    List.insertionSort (byStr NativeVariable.path) (built.1 ++ groupedVariables)
  { id := collection.id
    name := collection.name
    description := collection.description
    modes := collection.modes
    groups := sortedGroups
    vars := sortedVariables
    collectionVariablesCount := vars.length }

/-- Optional field of a serialized object: present only when `some`. -/
def optField (k : String) (v : Option JVal) : List (String × JVal) :=
  match v with
  | some x => [(k, x)]
  | none => []

/-- Serialization of a `valueByMode` entry. -/
def entryToJVal (e : ValueByModeEntry) : JVal :=
  .obj ([("value", e.value)] ++
    optField "referencedVariableId" (e.referencedVariableId.map JVal.str) ++
    optField "referencedVariableName" (e.referencedVariableName.map JVal.str))

/-- Serialization of a variable node (fields that are `undefined` in the
source are omitted, matching `JSON.stringify`). -/
def nativeVariableToJVal (v : NativeVariable) : JVal :=
  .obj ([("id", .str v.id), ("name", .str v.name), ("path", .str v.path),
         ("type", .str v.type)] ++
    optField "description" (v.description.map JVal.str) ++
    optField "scopes" (v.scopes.map (fun l => .arr (l.map JVal.str))) ++
    optField "codeSyntax" (v.codeSyntax.map (fun entries =>
      .arr (entries.map (fun p => .obj [("platform", .str p.1), ("value", .str p.2)])))) ++
    optField "aliases" (v.aliases.map (fun l => .arr (l.map JVal.str))) ++
    optField "hiddenFromPublishing" (v.hiddenFromPublishing.map JVal.bool) ++
    [("valueByMode", .obj (v.valueByMode.map (fun p => (p.1, entryToJVal p.2))))])

/-- Serialization of the group tree. -/
def nativeGroupToJVal : NativeGroup → JVal
  | .mk i n p gs vs =>
    .obj [("id", .str i), ("name", .str n), ("path", .str p),
          ("groups", .arr (gs.attach.map (fun gh =>
            match gh with
            | ⟨g, hg⟩ =>
              have : sizeOf g < 1 + sizeOf i + sizeOf n + sizeOf p + sizeOf gs + sizeOf vs := by
                have := List.sizeOf_lt_of_mem hg
                omega
              nativeGroupToJVal g))),
          ("variables", .arr (vs.map nativeVariableToJVal))]

/-- Serialization of a collection mode as the native builder emits it:
`{id, name, description}` (note the key rename from `modeId` to `id`). -/
def modeToJVal (m : CollectionMode) : JVal :=
  .obj ([("id", .str m.modeId), ("name", .str m.name)] ++
    optField "description" (m.description.map JVal.str))

/-- Serialization of a collection payload. -/
def nativeCollectionToJVal (c : NativeCollection) : JVal :=
  .obj ([("id", .str c.id), ("name", .str c.name)] ++
    optField "description" (c.description.map JVal.str) ++
    [("modes", .arr (c.modes.map modeToJVal)),
     ("groups", .arr (c.groups.map nativeGroupToJVal)),
     ("variables", .arr (c.vars.map nativeVariableToJVal)),
     ("collectionVariablesCount", .num (c.collectionVariablesCount : Rat))])

/-- Result of `buildDocumentData`: the serialized document plus the fields
the orchestrator reads back. -/
structure NativeDocument where
  data : JVal
  contentHash : String
  variablesCount : Nat
  collectionsCount : Nat

/-- Parameters of `buildDocumentData`. -/
structure NativeDocumentParams where
  collections : List VariableCollection
  vars : List FigVariable
  fileName : String
  exportedAt : String
  exportType : String
  variablesById : List (String × FigVariable)
  aliasSources : List (String × List String)
  remoteVariableNames : List (String × String)
  pluginVersion : String
  collectionContext : Option VariableCollection

/-- `buildDocumentData` from the native builder.  The content hash is
computed over the document with the `contentHash` and `exportedAt` fields
removed (the source spreads the document and overwrites those two keys with
`undefined`, which `stableStringify`'s JSON rendering then drops), and is
then written into the document. -/
def buildDocumentData (p : NativeDocumentParams) : NativeDocument :=
  let collectionPayloads := p.collections.map (fun collection =>
    buildCollectionPayload collection
      (p.vars.filter (fun vr => vr.variableCollectionId = collection.id))
      p.variablesById p.aliasSources p.remoteVariableNames)
  let variablesCount := p.vars.length
  let collectionsCount := collectionPayloads.length
  let docFields := fun (hash : String) =>
    [("collectionsCount", JVal.num (collectionsCount : Rat)),
     ("variablesCount", JVal.num (variablesCount : Rat)),
     ("contentHash", JVal.str hash),
     ("exportedAt", JVal.str p.exportedAt),
     ("fileName", JVal.str p.fileName),
     ("pluginVersion", JVal.str p.pluginVersion),
     ("exportFormat", JVal.str "figma-native"),
     ("exportType", JVal.str p.exportType)] ++
    (match p.collectionContext with
     | some c => [("collectionId", JVal.str c.id), ("collectionName", JVal.str c.name)]
     | none => []) ++
    [("collections", JVal.arr (collectionPayloads.map nativeCollectionToJVal))]
  let hashInput :=
    stableStringify (.obj (objRemove (objRemove (docFields "") "contentHash") "exportedAt")) 2
  let contentHash := sha256 hashInput
  ⟨.obj (docFields contentHash), contentHash, variablesCount, collectionsCount⟩

/-! ### Export bundle shapes (`src/types/export.ts`) and the orchestrator
(`src/export/buildExportBundle.ts`) -/

/-- An `ExportDocument` record. -/
structure ExportDocument where
  id : String
  label : String
  format : String
  exportType : String
  relativePath : String
  fileName : String
  data : JVal
  contentHash : String
  variablesCount : Nat
  collectionsCount : Nat
  collectionId : Option String
  collectionName : Option String

/-- An `ExportSummary` record. -/
structure ExportSummary where
  format : String
  exportType : String
  exportedAt : String
  pluginVersion : String
  fileName : String
  variablesCount : Nat
  collectionsCount : Nat
  documentsCount : Nat
  contentHash : String

/-- An `ExportBundle`: one summary plus the document list. -/
structure ExportBundle where
  summary : ExportSummary
  documents : List ExportDocument

/-- Options of `buildFigmaNativeExport`. -/
structure BuildNativeOptions where
  exportType : String
  folder : Option String
  singleFileName : String

/-- The native builder's summary hash: the hash of the deterministically
serialized, path-sorted list of `{path, hash}` pairs of the documents. -/
def summaryPairsHash (documents : List ExportDocument) : String :=
  sha256 (stableStringify
    (.arr ((List.insertionSort (byStr Prod.fst)
      (documents.map (fun d => (d.relativePath, d.contentHash)))).map
        (fun p => .obj [("path", .str p.1), ("hash", .str p.2)]))) 2)

/-- The per-collection document loop of `buildFigmaNativeExport`, carrying
the document list and the slug-usage counter. -/
def perCollectionStep (inp : ExportInput) (options : BuildNativeOptions)
    (variablesById : List (String × FigVariable))
    (aliasSources : List (String × List String))
    (remoteVariableNames : List (String × String))
    (acc : List ExportDocument × List (String × Nat)) (collection : VariableCollection) :
    List ExportDocument × List (String × Nat) :=
  let documents := acc.1
  let slugUsage := acc.2
  let collectionVariables :=
    inp.allVariables.filter (fun vr => vr.variableCollectionId = collection.id)
  let documentData := buildDocumentData
    ⟨[collection], collectionVariables, inp.rootName, inp.exportedAt, "perCollection",
     variablesById, aliasSources, remoteVariableNames, pluginVersionConst, some collection⟩
  let slugBase := slugify collection.name ("collection-" ++ toString (documents.length + 1))
  let occurrences := (List.lookup slugBase slugUsage).getD 0
  let slugUsage' := mapSet slugUsage slugBase (occurrences + 1)
  let slug := if occurrences = 0 then slugBase else slugBase ++ "-" ++ toString (occurrences + 1)
  let fileNameForCollection := slug ++ ".json"
  let relativePath := buildRepoPath options.folder fileNameForCollection
  (documents ++
    [{ id := "figma-native:" ++ collection.id
       label := collection.name
       format := "figma-native"
       exportType := "perCollection"
       relativePath := relativePath
       fileName := fileNameForCollection
       data := documentData.data
       contentHash := documentData.contentHash
       variablesCount := documentData.variablesCount
       collectionsCount := documentData.collectionsCount
       collectionId := some collection.id
       collectionName := some collection.name }],
   slugUsage')

/-- `buildFigmaNativeExport` from `src/export/buildFigmaNativeExport.ts`. -/
def buildFigmaNativeExport (inp : ExportInput) (options : BuildNativeOptions) :
    ExportBundle :=
  let variablesById := inp.allVariables.foldl (fun m vr => mapSet m vr.id vr) []
  let aliasSources := buildAliasSources inp.allVariables
  let remoteVariableNames :=
    resolveRemoteVariableNames inp.fetchVariableById variablesById inp.allVariables
  let sanitizedSingleFileName := ensureJsonExtension
    (if options.singleFileName = "" then "variables.json" else options.singleFileName)
  let documents : List ExportDocument :=
    if options.exportType = "singleFile" then
      let documentData := buildDocumentData
        ⟨inp.collections, inp.allVariables, inp.rootName, inp.exportedAt, "singleFile",
         variablesById, aliasSources, remoteVariableNames, pluginVersionConst, none⟩
      [{ id := "figma-native:all"
         label := "All Collections"
         format := "figma-native"
         exportType := "singleFile"
         relativePath := buildRepoPath options.folder sanitizedSingleFileName
         fileName := sanitizedSingleFileName
         data := documentData.data
         contentHash := documentData.contentHash
         variablesCount := documentData.variablesCount
         collectionsCount := documentData.collectionsCount
         collectionId := none
         collectionName := none }]
    else
      (inp.collections.foldl
        (perCollectionStep inp options variablesById aliasSources remoteVariableNames)
        ([], [])).1
  let summaryHash := summaryPairsHash documents
  { summary :=
      { format := "figma-native"
        exportType := options.exportType
        exportedAt := inp.exportedAt
        pluginVersion := pluginVersionConst
        fileName := inp.rootName
        variablesCount := inp.allVariables.length
        collectionsCount := inp.collections.length
        documentsCount := documents.length
        contentHash := summaryHash }
    documents := documents }

end Figgit

namespace Figgit

/-- Persisted plugin settings, as read by the orchestrator (`none` models an
absent value). -/
structure PersistedSettings where
  exportFormat : Option String
  exportType : Option String
  folder : Option String
  filename : Option String

/-- JS `a || b` for an optional string `a`: take it when truthy. -/
def jsOrStr (v : Option String) (dflt : String) : String :=
  match v with
  | some s => if s ≠ "" then s else dflt
  | none => dflt

/-- `buildDtcgBundle` from `src/export/buildExportBundle.ts`.  `nowFallback`
models the `new Date().toISOString()` used only when the document carries no
string `exportedAt` (the DTCG builder always writes one).  The extension
fields read back here are always strings/numbers written by
`buildDtcgJson`, so the truthiness fallbacks are modelled on those shapes. -/
def buildDtcgBundle (inp : ExportInput) (settings : PersistedSettings)
    (nowFallback : String) : Except String ExportBundle :=
  match buildDtcgJson inp with
  | .error e => .error e
  | .ok root =>
    let rootPairs : List (String × JVal) := match root with | .obj ps => ps | _ => []
    let figmaExt : JVal :=
      match objGet root "$extensions" with
      | some ext =>
        match objGet ext "com.figma" with
        | some fx => if jsTruthy fx then fx else .obj []
        | none => .obj []
      | none => .obj []
    let exportedAt :=
      match objGet figmaExt "exportedAt" with
      | some (.str s) => s
      | _ => nowFallback
    let pluginVersion :=
      match objGet figmaExt "pluginVersion" with
      | some (.str s) => if s ≠ "" then s else pluginVersionConst
      | _ => pluginVersionConst
    let fileName :=
      match objGet figmaExt "fileName" with
      | some (.str s) => if s ≠ "" then s else inp.rootName
      | _ => inp.rootName
    let variablesCount : Nat :=
      match objGet figmaExt "variablesCount" with
      | some (.num n) => n.num.toNat
      | _ => 0
    let collectionsCount : Nat :=
      match objGet figmaExt "collectionsCount" with
      | some (.num n) => n.num.toNat
      | _ => 0
    let recomputed := sha256 (stableStringify (.obj (objRemove rootPairs "$extensions")) 2)
    let contentHash :=
      match objGet figmaExt "contentHash" with
      | some (.str s) => if s ≠ "" then s else recomputed
      | _ => recomputed
    let fileNameSetting := jsOrStr settings.filename "variables.json"
    let relativePath := buildRepoPath settings.folder fileNameSetting
    .ok
      { summary :=
          { format := "dtcg"
            exportType := "singleFile"
            exportedAt := exportedAt
            pluginVersion := pluginVersion
            fileName := fileName
            variablesCount := variablesCount
            collectionsCount := collectionsCount
            documentsCount := 1
            contentHash := contentHash }
        documents :=
          [{ id := "dtcg:all"
             label := "All Collections (DTCG)"
             format := "dtcg"
             exportType := "singleFile"
             relativePath := relativePath
             fileName := fileNameSetting
             data := root
             contentHash := contentHash
             variablesCount := variablesCount
             collectionsCount := collectionsCount
             collectionId := none
             collectionName := none }] }

/-- `buildExportBundle` from `src/export/buildExportBundle.ts`: `dtcg`
forces single-file; `figma-native` honours the configured export type; any
other (or absent) format falls through to the DTCG bundle. -/
def buildExportBundle (inp : ExportInput) (settings : PersistedSettings)
    (nowFallback : String) : Except String ExportBundle :=
  let format := jsOrStr settings.exportFormat "dtcg"
  let exportType :=
    if format = "dtcg" then "singleFile" else jsOrStr settings.exportType "singleFile"
  if format = "figma-native" then
    .ok (buildFigmaNativeExport inp
      { exportType := exportType
        folder := settings.folder
        singleFileName := jsOrStr settings.filename "variables.json" })
  else buildDtcgBundle inp settings nowFallback

end Figgit

namespace Figgit

/-! ### GitHub client (`src/github/githubClient.ts`)

`upsertFile` is a sequence of HTTP interactions.  Each `ghFetch` call wraps
one `fetch` in `withRetry`; a resolved response — whatever its status — is a
success for the retry wrapper (JS `fetch` only rejects on transport
failures), so for the control flow modelled here each call yields exactly
one response, supplied by an environment record.  `JSON.parse` is a platform
primitive and is modelled as an oracle returning `none` when it would
throw. -/

/-- `fromBase64` from `githubClient.ts`, step 1: the Base64 alphabet index
of a character (`base64Lookup[c] || 0` — unknown characters decode as 0). -/
def base64CharIndex (c : Char) : Nat :=
  if 65 ≤ c.toNat ∧ c.toNat ≤ 90 then c.toNat - 65
  else if 97 ≤ c.toNat ∧ c.toNat ≤ 122 then c.toNat - 97 + 26
  else if 48 ≤ c.toNat ∧ c.toNat ≤ 57 then c.toNat - 48 + 52
  else if c = '+' then 62
  else if c = '/' then 63
  else 0

/-- `fromBase64`, step 2: decode the cleaned character list to bytes, four
characters at a time; characters past the end read as index 0, and the two
trailing bytes are kept only when enough characters remain. -/
def base64ToBytesFuel : Nat → List Char → List Nat
  | _, [] => []
  | 0, _ => []
  | fuel + 1, c₁ :: rest =>
    let e₁ := base64CharIndex c₁
    let e₂ := base64CharIndex (rest.getD 0 'A')
    let e₃ := base64CharIndex (rest.getD 1 'A')
    let e₄ := base64CharIndex (rest.getD 2 'A')
    ((e₁ <<< 2) ||| (e₂ >>> 4)) ::
      ((if rest.length ≥ 2 then [((e₂ &&& 15) <<< 4) ||| (e₃ >>> 2)] else []) ++
       (if rest.length ≥ 3 then [((e₃ &&& 3) <<< 6) ||| e₄] else []) ++
       base64ToBytesFuel fuel (rest.drop 3))

def base64ToBytes (l : List Char) : List Nat := base64ToBytesFuel l.length l

/-- `fromBase64`, step 3: UTF-8 byte sequences back to characters.  Bytes
missing past the end read as 0 (JS `undefined` coerces to `NaN`, and
`String.fromCharCode(NaN)` is `'\0'`); a decoded unit outside the scalar
range falls back to `'\0'` via `Char.ofNat` (Lean strings cannot carry lone
surrogates — no content this program decodes produces any). -/
def utf8BytesToCharsFuel : Nat → List Nat → List Char
  | _, [] => []
  | 0, _ => []
  | fuel + 1, b₁ :: rest =>
    if b₁ < 0x80 then Char.ofNat b₁ :: utf8BytesToCharsFuel fuel rest
    else if b₁ < 0xe0 then
      Char.ofNat (((b₁ &&& 0x1f) <<< 6) ||| ((rest.getD 0 0) &&& 0x3f)) ::
        utf8BytesToCharsFuel fuel (rest.drop 1)
    else if b₁ < 0xf0 then
      Char.ofNat (((b₁ &&& 0x0f) <<< 12) ||| (((rest.getD 0 0) &&& 0x3f) <<< 6) |||
          ((rest.getD 1 0) &&& 0x3f)) ::
        utf8BytesToCharsFuel fuel (rest.drop 2)
    else
      Char.ofNat (((b₁ &&& 0x07) <<< 18) ||| (((rest.getD 0 0) &&& 0x3f) <<< 12) |||
          (((rest.getD 1 0) &&& 0x3f) <<< 6) ||| ((rest.getD 2 0) &&& 0x3f)) ::
        utf8BytesToCharsFuel fuel (rest.drop 3)

def utf8BytesToChars (l : List Nat) : List Char := utf8BytesToCharsFuel l.length l

/-- `fromBase64` from `githubClient.ts`: strip whitespace and padding,
decode Base64 to bytes, decode UTF-8 to a string. -/
def fromBase64 (s : String) : String :=
  let clean := s.toList.filter (fun c => ¬ (jsIsWhitespace c ∨ c = '='))
  String.mk (utf8BytesToChars (base64ToBytes clean))

/-- A file returned by the contents API: blob SHA, Base64 content, HTML
URL. -/
structure GitHubFile where
  sha : String
  content : String
  html_url : String

/-- `UpsertResult` from `githubClient.ts`. -/
structure UpsertResult where
  updated : Bool
  skipped : Bool
  url : Option String
  commitSha : Option String
deriving DecidableEq

/-- The response to one PUT: its status, and the `content.html_url` /
`commit.sha` fields of its JSON body. -/
structure PutOutcome where
  status : Nat
  contentHtmlUrl : Option String
  commitShaOut : Option String

/-- Responses consumed by `ensureBranch`: the branch-ref read status, and
whether the repo-metadata read, base-ref read and ref-create calls
succeed. -/
structure EnsureEnv where
  refStatus : Nat
  repoOk : Bool
  baseRefOk : Bool
  createOk : Bool

/-- Responses consumed by one `upsertFile` call: the branch machinery, the
`JSON.parse` oracle, the initial contents read, the PUT responses by
attempt index, and the refetch after a first-attempt 409. -/
structure UpsertEnv where
  ensure : EnsureEnv
  jsonParse : String → Option JVal
  existingStatus : Nat
  existingFile : GitHubFile
  put : Nat → PutOutcome
  refetchStatus : Nat
  refetchFile : GitHubFile

/-- `ensureBranch` from `githubClient.ts`: 200 is a no-op, any non-404
failure is fatal, 404 creates the branch from the default branch. -/
def ensureBranch (env : EnsureEnv) : Except String Unit :=
  if env.refStatus = 200 then .ok ()
  else if env.refStatus ≠ 404 then
    .error ("Failed reading branch: " ++ toString env.refStatus)
  else if ¬ env.repoOk then .error "Cannot read repository metadata"
  else if ¬ env.baseRefOk then .error "Cannot read default branch ref"
  else if ¬ env.createOk then .error "Failed to create branch"
  else .ok ()

/-- `getExistingFile` from `githubClient.ts`: 404 is `null`, any other
non-2xx is fatal. -/
def getExistingFile (status : Nat) (f : GitHubFile) : Except String (Option GitHubFile) :=
  if status = 404 then .ok none
  else if ¬ (200 ≤ status ∧ status ≤ 299) then
    .error ("Failed reading existing file: " ++ toString status)
  else .ok (some f)

/-- The embedded hash extraction `JSON.parse(fromBase64(content))?.meta?.contentHash`
used by both skip checks (decoding or parse failures yield `none`, which
both call sites treat as "no embedded hash"). -/
def embeddedContentHash (jsonParse : String → Option JVal) (content : String) :
    Option JVal :=
  ((jsonParse (fromBase64 content)).bind (fun p => objGet p "meta")).bind
    (fun m => objGet m "contentHash")

/-- The skip condition `embeddedHash && embeddedHash === currentHash`: the
extracted value must be truthy and strictly equal to the supplied hash
string. -/
def hashMatches (jsonParse : String → Option JVal) (content currentHash : String) : Bool :=
  match embeddedContentHash jsonParse content with
  | some v =>
    jsTruthy v && (match v with | .str t => decide (t = currentHash) | _ => false)
  | none => false

/-- `attemptWrite` from `upsertFile` with `attempt = 1` (the retry).  Both
functions return the outcome together with the trace of PUT requests
issued, each recorded by the `sha` field it sent
(`prevExisting ? prevExisting.sha : body.sha`). -/
def attemptWriteRetry (env : UpsertEnv) (bodySha : Option String)
    (prevExisting : Option GitHubFile) :
    Except String UpsertResult × List (Option String) :=
  let shaSent := match prevExisting with
    | some p => some p.sha
    | none => bodySha
  let putRes := env.put 1
  if 200 ≤ putRes.status ∧ putRes.status ≤ 299 then
    (.ok ⟨true, false, putRes.contentHtmlUrl, putRes.commitShaOut⟩, [shaSent])
  else (.error ("Failed to write file: " ++ toString putRes.status), [shaSent])

/-- `attemptWrite` with `attempt = 0` (the source's recursion reaches depth
at most one — `attemptWrite(latest, 1)` — so the single recursive call is
unrolled into `attemptWriteRetry` above, whose 409-retry guard
`status === 409 && attempt === 0` is statically false, making a second 409
fall through to the fatal branch). -/
def attemptWrite (env : UpsertEnv) (bodySha : Option String) (currentHash : String)
    (prevExisting : Option GitHubFile) :
    Except String UpsertResult × List (Option String) :=
  let shaSent := match prevExisting with
    | some p => some p.sha
    | none => bodySha
  let putRes := env.put 0
  if putRes.status = 409 then
    match getExistingFile env.refetchStatus env.refetchFile with
    | .error e => (.error e, [shaSent])
    | .ok latest =>
      match latest with
      | some l =>
        if hashMatches env.jsonParse l.content currentHash then
          (.ok ⟨false, true, some l.html_url, none⟩, [shaSent])
        else
          let r := attemptWriteRetry env bodySha (some l)
          (r.1, shaSent :: r.2)
      | none =>
        let r := attemptWriteRetry env bodySha none
        (r.1, shaSent :: r.2)
  else if 200 ≤ putRes.status ∧ putRes.status ≤ 299 then
    (.ok ⟨true, false, putRes.contentHtmlUrl, putRes.commitShaOut⟩, [shaSent])
  else (.error ("Failed to write file: " ++ toString putRes.status), [shaSent])

/-- `upsertFile` from `githubClient.ts`: ensure the branch, fetch the
existing file, skip when its embedded content hash matches, otherwise PUT
(with the conflict-retry of `attemptWrite`).  The second component is the
trace of PUT requests issued. -/
def upsertFile (env : UpsertEnv) (currentHash : String) :
    Except String UpsertResult × List (Option String) :=
  match ensureBranch env.ensure with
  | .error e => (.error e, [])
  | .ok _ =>
    match getExistingFile env.existingStatus env.existingFile with
    | .error e => (.error e, [])
    | .ok existing =>
      match existing with
      | some f =>
        if hashMatches env.jsonParse f.content currentHash then
          (.ok ⟨false, true, some f.html_url, none⟩, [])
        else attemptWrite env (some f.sha) currentHash (some f)
      | none => attemptWrite env none currentHash none

end Figgit

namespace Figgit

/-! ### Statement-side definitions used by the theorems -/

/-- Distinctness of a key list (JS objects cannot carry duplicate keys). -/
def keysDistinct : List String → Bool
  | [] => true
  | k :: ks => (¬ ks.contains k) && keysDistinct ks

mutual

/-- Well-formedness of a JS value: every object in it has distinct keys. -/
def keysNodupV : JVal → Bool
  | .arr xs => keysNodupL xs
  | .obj ps => keysDistinct (ps.map Prod.fst) && keysNodupP ps
  | _ => true

def keysNodupL : List JVal → Bool
  | [] => true
  | x :: xs => keysNodupV x && keysNodupL xs

def keysNodupP : List (String × JVal) → Bool
  | [] => true
  | (_, v) :: ps => keysNodupV v && keysNodupP ps

end

mutual

/-- `keyPermV a b`: `b` is `a` with the insertion order of object keys
permuted, at any nesting depth; array order and all primitive content are
unchanged.  The object case matches entries pointwise up to an intermediate
list and then permutes it. -/
def keyPermV : JVal → JVal → Prop
  | .arr xs, .arr ys => keyPermL xs ys
  | .obj ps, .obj rs => ∃ qs, keyPermP ps qs ∧ qs.Perm rs
  | a, b => a = b

def keyPermL : List JVal → List JVal → Prop
  | [], [] => True
  | x :: xs, y :: ys => keyPermV x y ∧ keyPermL xs ys
  | _, _ => False

def keyPermP : List (String × JVal) → List (String × JVal) → Prop
  | [], [] => True
  | p :: ps, q :: qs => p.1 = q.1 ∧ keyPermV p.2 q.2 ∧ keyPermP ps qs
  | _, _ => False

end

/-- The slug transformation exactly as the specification words it:
lower-case, replace each whitespace run with a hyphen, strip every
character outside `[a-z0-9-]`. -/
def specSlugSegment (s : String) : String :=
  jsStripNonSlug (jsReplaceWsRuns (jsToLowerStr s))

/-- The capped geometric delay sequence the specification describes: each
successive delay is the previous one times the multiplier, capped at
`maxDelay`; the first delay is `initial`. -/
def capSeq (initial mult maxDelay : Nat) : Nat → Nat
  | 0 => initial
  | k + 1 => min (capSeq initial mult maxDelay k * mult) maxDelay

/-- The content hash a built DTCG document carries in its
`$extensions."com.figma"` metadata (extraction used to state hash
properties of `buildDtcgJson`). -/
def dtcgEmbeddedContentHash (r : Except String JVal) : Option JVal :=
  match r with
  | .ok root =>
    ((objGet root "$extensions").bind (fun e => objGet e "com.figma")).bind
      (fun f => objGet f "contentHash")
  | .error _ => none

/-! Concrete inputs used by witnesses and counterexamples. -/

/-- An export input with no collections and no variables. -/
def emptyInp : ExportInput := ⟨[], [], "F", "2024-01-01T00:00:00.000Z", fun _ => .missing⟩

/-- Settings selecting the DTCG format. -/
def dtcgSettings : PersistedSettings := ⟨some "dtcg", none, none, none⟩

/-- A raw alias value pointing at an id that is not a local variable. -/
def aliasRaw : JVal := .obj [("type", .str "VARIABLE_ALIAS"), ("id", .str "ext-12345678")]

/-- One collection with a single mode. -/
def coll1 : VariableCollection := ⟨"c1", "Colors", [⟨"m1", "Light", none⟩], none⟩

/-- One variable whose only mode value is the external alias above. -/
def var1 : FigVariable := ⟨"v1", "a", "c1", "COLOR", [("m1", aliasRaw)], none, none, none, false⟩

/-- Export input whose only alias target is external and whose fetch-by-id
resolves to `null` (empty) for every id. -/
def c4Inp : ExportInput := ⟨[coll1], [var1], "F", "T", fun _ => .missing⟩

/-- The bundle the empty DTCG export produces (used to instantiate theorems
at a concrete bundle). -/
def c5WitnessBundle : ExportBundle :=
  match buildExportBundle emptyInp dtcgSettings "T" with
  | .ok b => b
  | .error _ => ⟨⟨"", "", "", "", "", 0, 0, 0, ""⟩, []⟩

/-- A remote file whose decoded JSON carries `meta.contentHash = "h1"`
(the oracle below returns that parse for any input). -/
def parsedWithHash (h : String) : JVal := .obj [("meta", .obj [("contentHash", .str h)])]

/-- Environment for the idempotent-skip scenario: branch exists, the file
exists with an embedded hash `"h1"`, and any PUT would succeed. -/
def envSkip : UpsertEnv :=
  { ensure := ⟨200, true, true, true⟩
    jsonParse := fun _ => some (parsedWithHash "h1")
    existingStatus := 200
    existingFile := ⟨"sha1", "e30=", "http://u1"⟩
    put := fun _ => ⟨201, some "u2", some "cs"⟩
    refetchStatus := 404
    refetchFile := ⟨"", "", ""⟩ }

/-- Environment with an existing file embedding the degenerate empty hash. -/
def envEmptyHash : UpsertEnv :=
  { ensure := ⟨200, true, true, true⟩
    jsonParse := fun _ => some (parsedWithHash "")
    existingStatus := 200
    existingFile := ⟨"sha1", "e30=", "http://u1"⟩
    put := fun _ => ⟨201, some "u2", some "cs"⟩
    refetchStatus := 404
    refetchFile := ⟨"", "", ""⟩ }

/-- Environment whose first PUT conflicts (409) and whose refetched file
embeds the hash `"h1"` (another writer raced the same change in). -/
def envRace : UpsertEnv :=
  { ensure := ⟨200, true, true, true⟩
    jsonParse := fun _ => some (parsedWithHash "h1")
    existingStatus := 404
    existingFile := ⟨"", "", ""⟩
    put := fun _ => ⟨409, none, none⟩
    refetchStatus := 200
    refetchFile := ⟨"sha2", "e30=", "http://u3"⟩ }

/-- Environment whose first and second PUTs both conflict (409) while the
refetched file embeds a different hash. -/
def envDoubleConflict : UpsertEnv :=
  { ensure := ⟨200, true, true, true⟩
    jsonParse := fun _ => some (parsedWithHash "other")
    existingStatus := 404
    existingFile := ⟨"", "", ""⟩
    put := fun _ => ⟨409, none, none⟩
    refetchStatus := 200
    refetchFile := ⟨"sha2", "e30=", "http://u3"⟩ }

/-- Environment for the degenerate empty-hash race: first PUT conflicts,
the refetched file embeds the empty hash, the retry succeeds. -/
def envRaceEmptyHash : UpsertEnv :=
  { ensure := ⟨200, true, true, true⟩
    jsonParse := fun _ => some (parsedWithHash "")
    existingStatus := 404
    existingFile := ⟨"", "", ""⟩
    put := fun n => if n = 0 then ⟨409, none, none⟩ else ⟨200, some "u4", some "cs2"⟩
    refetchStatus := 200
    refetchFile := ⟨"sha2", "e30=", "http://u3"⟩ }

end Figgit

namespace Figgit

/-! ### Helper lemmas: the lexicographic key order -/

theorem char_eq_of_toNat_eq {a b : Char} (h : a.toNat = b.toNat) : a = b := by
  cases a
  cases b
  simp only [Char.toNat] at h
  congr 1
  exact UInt32.ext h

theorem lexLe_cons_iff (x y : Char) (xs ys : List Char) :
    lexLe (x :: xs) (y :: ys) = true ↔
      x.toNat < y.toNat ∨ (x.toNat = y.toNat ∧ lexLe xs ys = true) := by
  simp only [lexLe]
  by_cases h₁ : x.toNat < y.toNat
  · simp [h₁]
  · by_cases h₂ : y.toNat < x.toNat
    · simp only [if_neg h₁, if_pos h₂]
      constructor
      · intro h
        exact absurd h (by simp)
      · intro h
        rcases h with h | ⟨h, _⟩ <;> omega
    · have hx : x.toNat = y.toNat := by omega
      simp [if_neg h₁, if_neg h₂, hx]

theorem lexLe_total : ∀ xs ys : List Char, lexLe xs ys = true ∨ lexLe ys xs = true
  | [], _ => Or.inl rfl
  | _ :: _, [] => Or.inr rfl
  | x :: xs, y :: ys => by
    rw [lexLe_cons_iff, lexLe_cons_iff]
    rcases Nat.lt_trichotomy x.toNat y.toNat with h | h | h
    · exact Or.inl (Or.inl h)
    · rcases lexLe_total xs ys with hr | hr
      · exact Or.inl (Or.inr ⟨h, hr⟩)
      · exact Or.inr (Or.inr ⟨h.symm, hr⟩)
    · exact Or.inr (Or.inl h)

theorem lexLe_trans :
    ∀ xs ys zs : List Char, lexLe xs ys = true → lexLe ys zs = true → lexLe xs zs = true
  | [], _, _, _, _ => rfl
  | _ :: _, [], _, h, _ => by simp [lexLe] at h
  | _ :: _, _ :: _, [], _, h₂ => by simp [lexLe] at h₂
  | x :: xs, y :: ys, z :: zs, h₁, h₂ => by
    rw [lexLe_cons_iff] at h₁ h₂ ⊢
    rcases h₁ with h₁ | ⟨e₁, r₁⟩ <;> rcases h₂ with h₂ | ⟨e₂, r₂⟩
    · exact Or.inl (by omega)
    · exact Or.inl (by omega)
    · exact Or.inl (by omega)
    · exact Or.inr ⟨by omega, lexLe_trans xs ys zs r₁ r₂⟩

theorem lexLe_antisymm :
    ∀ xs ys : List Char, lexLe xs ys = true → lexLe ys xs = true → xs = ys
  | [], [], _, _ => rfl
  | [], _ :: _, _, h₂ => by simp [lexLe] at h₂
  | _ :: _, [], h₁, _ => by simp [lexLe] at h₁
  | x :: xs, y :: ys, h₁, h₂ => by
    rw [lexLe_cons_iff] at h₁ h₂
    rcases h₁ with h₁ | ⟨e₁, r₁⟩ <;> rcases h₂ with h₂ | ⟨e₂, r₂⟩ <;> try omega
    rw [char_eq_of_toNat_eq e₁, lexLe_antisymm xs ys r₁ r₂]

theorem strLeB_antisymm {s t : String} (h₁ : strLeB s t = true) (h₂ : strLeB t s = true) :
    s = t := by
  cases s
  cases t
  exact congrArg String.mk (by simpa using lexLe_antisymm _ _ h₁ h₂)

end Figgit

namespace Figgit

/-! ### Helper lemmas: permutation-invariance of the serializer -/

theorem sortPairs_eq_map : ∀ ps : List (String × JVal),
    sortPairs ps = ps.map (fun p => (p.1, sortValue p.2))
  | [] => rfl
  | (k, v) :: ps => by simp [sortPairs, sortPairs_eq_map ps]

theorem keyPermP_keys : ∀ ps qs : List (String × JVal),
    keyPermP ps qs → ps.map Prod.fst = qs.map Prod.fst
  | [], [], _ => rfl
  | [], _ :: _, h => absurd h (by simp [keyPermP])
  | _ :: _, [], h => absurd h (by simp [keyPermP])
  | p :: ps, q :: qs, h => by
    obtain ⟨h₁, _, h₃⟩ := h
    simp [h₁, keyPermP_keys ps qs h₃]

theorem keysDistinct_pairwise : ∀ ks : List String,
    keysDistinct ks = true → ks.Pairwise (fun a b => a ≠ b)
  | [], _ => List.Pairwise.nil
  | k :: ks, h => by
    simp only [keysDistinct, Bool.and_eq_true, Bool.not_eq_true'] at h
    refine List.Pairwise.cons (fun b hb hkb => ?_) (keysDistinct_pairwise ks h.2)
    rw [hkb] at h
    have h₁ := h.1
    simp at h₁
    exact h₁ hb

theorem insertionSort_key_congr (l₁ l₂ : List (String × JVal)) (hp : l₁.Perm l₂)
    (hn : (l₁.map Prod.fst).Pairwise (fun a b => a ≠ b)) :
    List.insertionSort keyRel l₁ = List.insertionSort keyRel l₂ := by
  haveI : IsTotal (String × JVal) keyRel := ⟨fun a b => lexLe_total a.1.toList b.1.toList⟩
  haveI : IsTrans (String × JVal) keyRel :=
    ⟨fun a b c h₁ h₂ => lexLe_trans a.1.toList b.1.toList c.1.toList h₁ h₂⟩
  haveI : IsAntisymm (String × JVal) (fun p q => keyRel p q ∧ p.1 ≠ q.1) :=
    ⟨fun _ _ h₁ h₂ => absurd (strLeB_antisymm h₁.1 h₂.1) h₁.2⟩
  have hperm : (List.insertionSort keyRel l₁).Perm (List.insertionSort keyRel l₂) :=
    ((List.perm_insertionSort keyRel l₁).trans hp).trans
      (List.perm_insertionSort keyRel l₂).symm
  have hnodup₁ : (List.insertionSort keyRel l₁).Pairwise (fun p q => p.1 ≠ q.1) := by
    have h₀ : l₁.Pairwise (fun p q => p.1 ≠ q.1) := (List.pairwise_map).mp hn
    exact ((List.perm_insertionSort keyRel l₁).pairwise_iff
      (fun h => (h ·.symm))).mpr h₀
  have hnodup₂ : (List.insertionSort keyRel l₂).Pairwise (fun p q => p.1 ≠ q.1) :=
    (hperm.pairwise_iff (fun h => (h ·.symm))).mp hnodup₁
  have hs₁ : (List.insertionSort keyRel l₁).Pairwise (fun p q => keyRel p q ∧ p.1 ≠ q.1) :=
    (List.sorted_insertionSort keyRel l₁).and hnodup₁
  have hs₂ : (List.insertionSort keyRel l₂).Pairwise (fun p q => keyRel p q ∧ p.1 ≠ q.1) :=
    (List.sorted_insertionSort keyRel l₂).and hnodup₂
  exact List.eq_of_perm_of_sorted hperm hs₁ hs₂

end Figgit

namespace Figgit

mutual

theorem sortV_congr : ∀ (a b : JVal), keyPermV a b → keysNodupV a = true →
    sortValue a = sortValue b
  | .null, b, h, _ => by cases b <;> simp_all [keyPermV]
  | .bool x, b, h, _ => by cases b <;> simp_all [keyPermV]
  | .num x, b, h, _ => by cases b <;> simp_all [keyPermV]
  | .str x, b, h, _ => by cases b <;> simp_all [keyPermV]
  | .arr xs, b, h, hn => by
    cases b with
    | arr ys =>
      simp only [keyPermV] at h
      simp only [sortValue]
      exact congrArg JVal.arr (sortL_congr xs ys h (by simpa [keysNodupV] using hn))
    | null => exact absurd h (by simp [keyPermV])
    | bool y => exact absurd h (by simp [keyPermV])
    | num y => exact absurd h (by simp [keyPermV])
    | str y => exact absurd h (by simp [keyPermV])
    | obj qs => exact absurd h (by simp [keyPermV])
  | .obj ps, b, h, hn => by
    cases b with
    | obj rs =>
      simp only [keyPermV] at h
      obtain ⟨qs, hpq, hqr⟩ := h
      simp only [keysNodupV, Bool.and_eq_true] at hn
      simp only [sortValue]
      have e₁ : sortPairs ps = sortPairs qs := sortP_congr ps qs hpq hn.2
      have hkeys : ps.map Prod.fst = qs.map Prod.fst := keyPermP_keys ps qs hpq
      have hperm : (sortPairs qs).Perm (sortPairs rs) := by
        rw [sortPairs_eq_map, sortPairs_eq_map]
        exact hqr.map _
      have hnq : ((sortPairs qs).map Prod.fst).Pairwise (fun a b => a ≠ b) := by
        have h₂ : (sortPairs qs).map Prod.fst = qs.map Prod.fst := by
          rw [sortPairs_eq_map, List.map_map]
          rfl
        rw [h₂, ← hkeys]
        exact keysDistinct_pairwise _ hn.1
      rw [e₁, insertionSort_key_congr (sortPairs qs) (sortPairs rs) hperm hnq]
    | null => exact absurd h (by simp [keyPermV])
    | bool y => exact absurd h (by simp [keyPermV])
    | num y => exact absurd h (by simp [keyPermV])
    | str y => exact absurd h (by simp [keyPermV])
    | arr ys => exact absurd h (by simp [keyPermV])

theorem sortL_congr : ∀ (xs ys : List JVal), keyPermL xs ys → keysNodupL xs = true →
    sortList xs = sortList ys
  | [], [], _, _ => rfl
  | [], _ :: _, h, _ => absurd h (by simp [keyPermL])
  | _ :: _, [], h, _ => absurd h (by simp [keyPermL])
  | x :: xs, y :: ys, h, hn => by
    simp only [keyPermL] at h
    simp only [keysNodupL, Bool.and_eq_true] at hn
    simp only [sortList]
    rw [sortV_congr x y h.1 hn.1, sortL_congr xs ys h.2 hn.2]

theorem sortP_congr : ∀ (ps qs : List (String × JVal)), keyPermP ps qs →
    keysNodupP ps = true → sortPairs ps = sortPairs qs
  | [], [], _, _ => rfl
  | [], _ :: _, h, _ => absurd h (by simp [keyPermP])
  | _ :: _, [], h, _ => absurd h (by simp [keyPermP])
  | (k, v) :: ps, (k₂, v₂) :: qs, h, hn => by
    simp only [keyPermP] at h
    obtain ⟨h₁, h₂, h₃⟩ := h
    simp only [keysNodupP, Bool.and_eq_true] at hn
    simp only [sortPairs]
    rw [show k = k₂ from h₁, sortV_congr v v₂ h₂ hn.1, sortP_congr ps qs h₃ hn.2]

end

end Figgit

namespace Figgit

/-- C6: for every JSON value tree and every permutation of the insertion
order of object keys at any nesting depth (with JS-well-formed, duplicate-free
keys), `stableStringify` produces exactly the same output string: object keys
are sorted at every level, array order is preserved, and primitives pass
through unchanged. -/
theorem stableStringify_perm_invariant (a b : JVal) (space : Nat)
    (h : keyPermV a b) (hn : keysNodupV a = true) :
    stableStringify a space = stableStringify b space :=
  congrArg (renderJ space 0) (sortV_congr a b h hn)

theorem stableStringify_perm_invariant_witness :
    keysNodupV (JVal.obj [("b", .num 2), ("a", .num 1)]) = true ∧
    stableStringify (JVal.obj [("b", .num 2), ("a", .num 1)]) 2 =
      stableStringify (JVal.obj [("a", .num 1), ("b", .num 2)]) 2 := by
  have hp : keyPermV (JVal.obj [("b", .num 2), ("a", .num 1)])
      (JVal.obj [("a", .num 1), ("b", .num 2)]) := by
    simp only [keyPermV]
    exact ⟨[("b", .num 2), ("a", .num 1)], by simp [keyPermP, keyPermV],
      List.Perm.swap ("a", JVal.num 1) ("b", JVal.num 2) []⟩
  exact ⟨rfl, stableStringify_perm_invariant _ _ 2 hp rfl⟩

/-- C7: `buildTokenPath` returns a dotted variable name unchanged; otherwise
it returns `"{collection}.{variable}"` where each segment is lower-cased,
whitespace runs are replaced by hyphens, and every character outside
`[a-z0-9-]` (underscores included) is stripped; e.g. variable `"base"` in
collection `"Spacing"` yields `"spacing.base"`. -/
theorem buildTokenPath_spec :
    (∀ c v : String, v.toList.contains '.' = true → buildTokenPath c v = v) ∧
    (∀ c v : String, v.toList.contains '.' = false →
      buildTokenPath c v = specSlugSegment c ++ "." ++ specSlugSegment v) ∧
    (∀ s : String, ∀ ch ∈ (specSlugSegment s).toList, isSlugChar ch = true) ∧
    specSlugSegment "My_Name!" = "myname" ∧
    buildTokenPath "Spacing" "base" = "spacing.base" := by
  refine ⟨?_, ?_, ?_, rfl, rfl⟩
  · intro c v h
    unfold buildTokenPath
    rw [h]
    simp
  · intro c v h
    unfold buildTokenPath
    rw [h]
    simp [specSlugSegment]
  · intro s ch hch
    have h : ch ∈ (jsReplaceWsRuns (jsToLowerStr s)).toList.filter isSlugChar := hch
    exact (List.mem_filter.mp h).2

theorem buildTokenPath_spec_witness :
    buildTokenPath "Colors" "bg.default" = "bg.default" ∧
    buildTokenPath "Spacing" "base" = specSlugSegment "Spacing" ++ "." ++ specSlugSegment "base" :=
  ⟨buildTokenPath_spec.1 "Colors" "bg.default" rfl,
   buildTokenPath_spec.2.1 "Spacing" "base" rfl⟩

/-- C3 counterexample: the path map contains an entry for the alias target,
yet `convertValue` throws instead of returning the reference — the source's
falsy check treats an empty-string entry as absent, so the claim as stated
fails at this input. -/
theorem convertValue_alias_empty_entry_counterexample :
    List.lookup "ext-1" [("ext-1", "")] = some "" ∧
    convertValue ⟨"ALIAS", none, some "ext-1"⟩ "COLOR" "v" [("ext-1", "")] =
      .error (aliasErrorMessage "ext-1") :=
  ⟨rfl, rfl⟩

/-- C3 (amended): for an ALIAS value with a nonempty `refVariableId`,
`convertValue` returns `"{" ++ path ++ "}"` when the path map contains a
NONEMPTY entry for the id, and throws the unresolved-alias error naming the
id when the map has no entry (an empty-string entry is likewise treated as
absent); the unresolved case is never silently defaulted. -/
theorem convertValue_alias_spec (id p figmaType variableName : String)
    (m : List (String × String)) (hid : id ≠ "") :
    (List.lookup id m = some p → p ≠ "" →
      convertValue ⟨"ALIAS", none, some id⟩ figmaType variableName m =
        .ok (.str ("\x7b" ++ p ++ "\x7d"))) ∧
    (List.lookup id m = none →
      convertValue ⟨"ALIAS", none, some id⟩ figmaType variableName m =
        .error (aliasErrorMessage id)) := by
  constructor
  · intro hlook hp
    simp [convertValue, hid, convertAliasToDtcg, hlook, hp, Except.map]
  · intro hlook
    simp [convertValue, hid, convertAliasToDtcg, hlook, Except.map]

theorem convertValue_alias_spec_witness :
    convertValue ⟨"ALIAS", none, some "x"⟩ "COLOR" "v" [("x", "a.b")] =
      .ok (.str "\x7ba.b\x7d") ∧
    convertValue ⟨"ALIAS", none, some "y"⟩ "COLOR" "v" [] =
      .error (aliasErrorMessage "y") :=
  ⟨(convertValue_alias_spec "x" "a.b" "COLOR" "v" [("x", "a.b")] (by decide)).1 rfl (by decide),
   (convertValue_alias_spec "y" "" "COLOR" "v" [] (by decide)).2 rfl⟩

end Figgit

namespace Figgit

theorem lookup_objSet_self : ∀ (ps : List (String × JVal)) (k : String) (v : JVal),
    List.lookup k (objSet ps k v) = some v
  | [], k, v => by simp [objSet, List.lookup]
  | (k₁, v₁) :: ps, k, v => by
    by_cases h : k₁ = k
    · subst h
      simp [objSet, List.lookup]
    · have hne : (k == k₁) = false := beq_eq_false_iff_ne.mpr (fun hh => h hh.symm)
      simp [objSet, h, List.lookup, hne, lookup_objSet_self ps k v]

/-- C2: two builds over identical collection/variable data that differ only
in the export timestamp (`exportedAt`) produce identical content hashes,
for both formats — the DTCG hash is computed over the token tree only, and
the native hash over the document with `contentHash` and `exportedAt`
removed, so neither depends on the timestamp. -/
theorem content_hash_excludes_exportedAt :
    (∀ (cs : List VariableCollection) (vars : List FigVariable) (fn : String)
        (fetch : String → FetchResult) (t₁ t₂ : String),
      dtcgEmbeddedContentHash (buildDtcgJson ⟨cs, vars, fn, t₁, fetch⟩) =
        dtcgEmbeddedContentHash (buildDtcgJson ⟨cs, vars, fn, t₂, fetch⟩)) ∧
    (∀ (p : NativeDocumentParams) (t₁ t₂ : String),
      (buildDocumentData { p with exportedAt := t₁ }).contentHash =
        (buildDocumentData { p with exportedAt := t₂ }).contentHash) := by
  constructor
  · intro cs vars fn fetch t₁ t₂
    simp only [buildDtcgJson, buildDtcgRoot, dtcgEmbeddedContentHash]
    generalize buildTokens cs
      (resolveRemotePaths fetch (buildLocalPathMap cs vars)
        (collectRemoteIds (buildLocalPathMap cs vars) vars)) vars = r
    rcases r with e | tokens
    · rfl
    · simp [objGet, lookup_objSet_self, List.lookup]
  · intro p t₁ t₂
    rcases hc : p.collectionContext with _ | c <;>
      simp [buildDocumentData, hc, objRemove, List.filter]

end Figgit

namespace Figgit

theorem buildTokensStep_skip (cols : List VariableCollection) (pm : List (String × String))
    (vr : FigVariable) (c : VariableCollection) (m₀ : CollectionMode)
    (ms : List CollectionMode) (raw : JVal)
    (hfind : cols.find? (fun col => col.id = vr.variableCollectionId) = some c)
    (hmodes : c.modes = m₀ :: ms)
    (hraw : List.lookup m₀.modeId vr.valuesByMode = some raw)
    (hfalsy : jsTruthy raw = false) :
    ∀ tokens, buildTokensStep cols pm tokens vr = .ok tokens := by
  intro tokens
  cases hp : List.lookup vr.id pm with
  | none => simp [buildTokensStep, hfind, hp]
  | some tokenPath =>
    by_cases he : tokenPath = "" <;>
      simp [buildTokensStep, hfind, hp, he, hmodes, hraw, hfalsy]

theorem buildTokensFrom_skip (cols : List VariableCollection)
    (pm : List (String × String)) (vr : FigVariable)
    (hstep : ∀ tokens, buildTokensStep cols pm tokens vr = .ok tokens) :
    ∀ (pre post : List FigVariable) (tokens : List (String × JVal)),
      buildTokensFrom cols pm (pre ++ vr :: post) tokens =
        buildTokensFrom cols pm (pre ++ post) tokens := by
  intro pre
  induction pre with
  | nil =>
    intro post tokens
    simp [buildTokensFrom, hstep tokens]
  | cons p ps ih =>
    intro post tokens
    simp only [List.cons_append, buildTokensFrom]
    cases buildTokensStep cols pm tokens p with
    | error e => rfl
    | ok t₂ => exact ih post t₂

theorem buildValueByMode_skip (vb : List (String × FigVariable))
    (rn : List (String × String)) (vr : FigVariable) (m : CollectionMode) (raw : JVal)
    (hraw : List.lookup m.modeId vr.valuesByMode = some raw)
    (hfalsy : jsTruthy raw = false) :
    ∀ (ms₁ ms₂ : List CollectionMode) (acc : List (String × ValueByModeEntry)),
      buildValueByMode vb rn vr (ms₁ ++ m :: ms₂) acc =
        buildValueByMode vb rn vr (ms₁ ++ ms₂) acc := by
  intro ms₁
  induction ms₁ with
  | nil =>
    intro ms₂ acc
    simp [buildValueByMode, hraw, hfalsy]
  | cons m' ms ih =>
    intro ms₂ acc
    simp only [List.cons_append, buildValueByMode]
    cases List.lookup m'.modeId vr.valuesByMode with
    | none => exact ih ms₂ acc
    | some raw' =>
      by_cases ht : jsTruthy raw'
      · simp only [ht, not_true, if_neg, ite_false, Bool.not_true]
        cases buildModeValueEntry (normalizeModeValue raw') vb rn with
        | none => simp [ht]; exact ih ms₂ acc
        | some e => simp [ht]; exact ih ms₂ (mapSet acc m'.modeId e)
      · simp [ht]
        exact ih ms₂ acc

/-- C10: a variable whose raw value for its collection's first mode is a
falsy primitive (0, false, the empty string) contributes no token to the
DTCG output — the phase-2 fold behaves exactly as if the variable were
absent — and likewise the native builder's `valueByMode` fold omits any
mode entry whose raw value is falsy; falsy raw mode values are treated as
absent, not exported. -/
theorem falsy_raw_values_omitted :
    (∀ (cols : List VariableCollection) (pm : List (String × String))
        (pre post : List FigVariable) (vr : FigVariable) (c : VariableCollection)
        (m₀ : CollectionMode) (ms : List CollectionMode) (raw : JVal),
      cols.find? (fun col => col.id = vr.variableCollectionId) = some c →
      c.modes = m₀ :: ms →
      List.lookup m₀.modeId vr.valuesByMode = some raw →
      jsTruthy raw = false →
      buildTokens cols pm (pre ++ vr :: post) = buildTokens cols pm (pre ++ post)) ∧
    (∀ (vb : List (String × FigVariable)) (rn : List (String × String))
        (vr : FigVariable) (m : CollectionMode) (ms₁ ms₂ : List CollectionMode)
        (raw : JVal) (acc : List (String × ValueByModeEntry)),
      List.lookup m.modeId vr.valuesByMode = some raw →
      jsTruthy raw = false →
      buildValueByMode vb rn vr (ms₁ ++ m :: ms₂) acc =
        buildValueByMode vb rn vr (ms₁ ++ ms₂) acc) := by
  constructor
  · intro cols pm pre post vr c m₀ ms raw hfind hmodes hraw hfalsy
    exact buildTokensFrom_skip cols pm vr
      (buildTokensStep_skip cols pm vr c m₀ ms raw hfind hmodes hraw hfalsy) pre post []
  · intro vb rn vr m ms₁ ms₂ raw acc hraw hfalsy
    exact buildValueByMode_skip vb rn vr m raw hraw hfalsy ms₁ ms₂ acc

theorem falsy_raw_values_omitted_witness :
    buildTokens [coll1] []
        [⟨"v2", "b", "c1", "FLOAT", [("m1", .num 0)], none, none, none, false⟩] =
      buildTokens [coll1] [] [] ∧
    buildValueByMode [] []
        ⟨"v2", "b", "c1", "FLOAT", [("m1", .bool false)], none, none, none, false⟩
        [⟨"m1", "Light", none⟩] [] =
      buildValueByMode [] []
        ⟨"v2", "b", "c1", "FLOAT", [("m1", .bool false)], none, none, none, false⟩ [] [] :=
  ⟨falsy_raw_values_omitted.1 [coll1] [] [] []
      ⟨"v2", "b", "c1", "FLOAT", [("m1", .num 0)], none, none, none, false⟩
      coll1 ⟨"m1", "Light", none⟩ [] (.num 0) rfl rfl rfl rfl,
   falsy_raw_values_omitted.2 [] []
      ⟨"v2", "b", "c1", "FLOAT", [("m1", .bool false)], none, none, none, false⟩
      ⟨"m1", "Light", none⟩ [] [] (.bool false) [] rfl rfl⟩

end Figgit

namespace Figgit

theorem lookup_mapSet_self (m : List (String × α)) (k : String) (v : α) :
    List.lookup k (mapSet m k v) = some v := by
  induction m with
  | nil => simp [mapSet, List.lookup]
  | cons p ps ih =>
    obtain ⟨k₁, v₁⟩ := p
    by_cases h : k₁ = k
    · subst h
      simp [mapSet, List.lookup]
    · have hne : (k == k₁) = false := beq_eq_false_iff_ne.mpr (fun hh => h hh.symm)
      simp [mapSet, h, List.lookup, hne, ih]

theorem lookup_mapSet_ne (m : List (String × α)) (k k₂ : String) (v : α) (hne : k ≠ k₂) :
    List.lookup k₂ (mapSet m k v) = List.lookup k₂ m := by
  have hb : (k₂ == k) = false := beq_eq_false_iff_ne.mpr (fun hh => hne hh.symm)
  induction m with
  | nil => simp [mapSet, List.lookup, hb]
  | cons p ps ih =>
    obtain ⟨k₁, v₁⟩ := p
    by_cases h : k₁ = k
    · subst h
      simp [mapSet, List.lookup, hb]
    · simp only [mapSet, if_neg h, List.lookup]
      cases hkk : k₂ == k₁ with
      | true => rfl
      | false => exact ih

theorem lookup_resolveStep_ne (fetch : String → FetchResult)
    (hwf : ∀ j vid name, fetch j = .found vid name → vid = j)
    (m : List (String × String)) (j id : String) (hne : j ≠ id) :
    List.lookup id (resolveStep fetch m j) = List.lookup id m := by
  cases hf : fetch j with
  | throws => simp only [resolveStep, hf]; exact lookup_mapSet_ne m j id _ hne
  | missing => simp [resolveStep, hf]
  | found vid name =>
    have hv : vid = j := hwf j vid name hf
    subst hv
    simp only [resolveStep, hf]
    exact lookup_mapSet_ne m vid id _ hne

theorem resolveRemotePaths_not_mem (fetch : String → FetchResult)
    (hwf : ∀ j vid name, fetch j = .found vid name → vid = j) (id : String) :
    ∀ (ids : List String) (m : List (String × String)), id ∉ ids →
      List.lookup id (resolveRemotePaths fetch m ids) = List.lookup id m
  | [], _, _ => rfl
  | j :: ids, m, h => by
    have hj : j ≠ id := fun hh => h (hh ▸ List.mem_cons_self j ids)
    have hrest : id ∉ ids := fun hh => h (List.mem_cons_of_mem j hh)
    calc List.lookup id (resolveRemotePaths fetch m (j :: ids))
        = List.lookup id (resolveRemotePaths fetch (resolveStep fetch m j) ids) := rfl
      _ = List.lookup id (resolveStep fetch m j) :=
          resolveRemotePaths_not_mem fetch hwf id ids _ hrest
      _ = List.lookup id m := lookup_resolveStep_ne fetch hwf m j id hj

theorem resolveRemotePaths_mem (fetch : String → FetchResult)
    (hwf : ∀ j vid name, fetch j = .found vid name → vid = j) (id : String) :
    ∀ (ids : List String) (m : List (String × String)), ids.Nodup → id ∈ ids →
      (fetch id = .throws →
        List.lookup id (resolveRemotePaths fetch m ids) =
          some ("external.unknown-" ++ id.take 8)) ∧
      (fetch id = .missing → List.lookup id m = none →
        List.lookup id (resolveRemotePaths fetch m ids) = none)
  | [], _, _, hmem => absurd hmem (List.not_mem_nil id)
  | j :: ids, m, hnd, hmem => by
    have hnd' := List.nodup_cons.mp hnd
    by_cases hj : j = id
    · subst hj
      have hrest : j ∉ ids := hnd'.1
      constructor
      · intro hthrow
        have h₁ : resolveStep fetch m j = mapSet m j ("external.unknown-" ++ j.take 8) := by
          simp [resolveStep, hthrow]
        show List.lookup j (resolveRemotePaths fetch (resolveStep fetch m j) ids) = _
        rw [h₁, resolveRemotePaths_not_mem fetch hwf j ids _ hrest, lookup_mapSet_self]
      · intro hmiss hnone
        have h₁ : resolveStep fetch m j = m := by simp [resolveStep, hmiss]
        show List.lookup j (resolveRemotePaths fetch (resolveStep fetch m j) ids) = none
        rw [h₁, resolveRemotePaths_not_mem fetch hwf j ids _ hrest, hnone]
    · have hmem₂ : id ∈ ids := by
        rcases List.mem_cons.mp hmem with h | h
        · exact absurd h.symm hj
        · exact h
      have hrec :=
        resolveRemotePaths_mem fetch hwf id ids (resolveStep fetch m j) hnd'.2 hmem₂
      refine ⟨fun hthrow => hrec.1 hthrow, fun hmiss hnone => ?_⟩
      exact hrec.2 hmiss (by rw [lookup_resolveStep_ne fetch hwf m j id hj, hnone])

/-- C4 counterexample: the fetch oracle resolving to `null` (the `missing`
outcome) for the external alias target `"ext-12345678"` inserts no fallback
entry at all — the id stays unmapped after the resolver runs — and the
subsequent alias-conversion failure escapes `buildDtcgJson` as a wrapped
error.  Only a fetch that THROWS produces the `external.unknown-` fallback:
had the same fetch rejected instead, the build would have succeeded. -/
theorem remote_null_fetch_counterexample :
    List.lookup "ext-12345678"
        (resolveRemotePaths c4Inp.fetchVariableById
          (buildLocalPathMap c4Inp.collections c4Inp.allVariables)
          (collectRemoteIds (buildLocalPathMap c4Inp.collections c4Inp.allVariables)
            c4Inp.allVariables)) = none ∧
    buildDtcgJson c4Inp =
      .error ("Failed to build DTCG JSON: " ++ aliasErrorMessage "ext-12345678") ∧
    (buildDtcgJson { c4Inp with fetchVariableById := fun _ => .throws }).isOk = true :=
  ⟨rfl, rfl, rfl⟩

/-- C4 (amended): over a duplicate-free remote-id list and a fetch oracle
that returns the requested id on success, a fetch that THROWS inserts the
deterministic fallback path `"external.unknown-" ++ first 8 chars of the
id`, but a fetch that resolves to `null` inserts nothing — a previously
unmapped id stays unmapped — and any resulting build error propagates out
of `buildDtcgJson` wrapped as `"Failed to build DTCG JSON: ..."` rather
than being recovered. -/
theorem remote_resolution_spec :
    (∀ (fetch : String → FetchResult) (m : List (String × String))
        (ids : List String) (id : String),
      (∀ j vid name, fetch j = .found vid name → vid = j) →
      ids.Nodup → id ∈ ids →
      (fetch id = .throws →
        List.lookup id (resolveRemotePaths fetch m ids) =
          some ("external.unknown-" ++ id.take 8)) ∧
      (fetch id = .missing → List.lookup id m = none →
        List.lookup id (resolveRemotePaths fetch m ids) = none)) ∧
    (∀ (inp : ExportInput) (e : String), buildDtcgRoot inp = .error e →
      buildDtcgJson inp = .error ("Failed to build DTCG JSON: " ++ e)) := by
  constructor
  · intro fetch m ids id hwf hnd hmem
    exact resolveRemotePaths_mem fetch hwf id ids m hnd hmem
  · intro inp e h
    simp [buildDtcgJson, h]

theorem remote_resolution_spec_witness :
    List.lookup "ext-12345678"
        (resolveRemotePaths (fun _ => .throws) [] ["ext-12345678"]) =
      some "external.unknown-ext-1234" ∧
    buildDtcgJson c4Inp =
      .error ("Failed to build DTCG JSON: " ++ aliasErrorMessage "ext-12345678") := by
  constructor
  · exact (remote_resolution_spec.1 (fun _ => .throws) [] ["ext-12345678"] "ext-12345678"
      (fun j vid name h => nomatch h) (by simp) (by simp)).1 rfl
  · exact remote_resolution_spec.2 c4Inp (aliasErrorMessage "ext-12345678") rfl

end Figgit

namespace Figgit

set_option maxRecDepth 200000 in
/-- C5 counterexample: for the empty DTCG export the summary's contentHash
is the single document's own contentHash — the hash of the token tree —
while the hash of the path-sorted path/hash pair list of the documents is a
different digest; so the summary-hash rule is NOT the pair-list hash for
the dtcg format. -/
theorem dtcg_summary_hash_counterexample :
    (buildExportBundle emptyInp dtcgSettings "T").map (fun b => b.summary.contentHash) =
      .ok "ccc248e05fa104bdc87fc98d003759d7b42f0f2fba8eaa217480d75d1d2644ca" ∧
    (buildExportBundle emptyInp dtcgSettings "T").map
        (fun b => summaryPairsHash b.documents) =
      .ok "7cb63af0b5001d0a80f6e31ff8424d866a187c8d9c51f18961bd41c73cd6721f" ∧
    ("ccc248e05fa104bdc87fc98d003759d7b42f0f2fba8eaa217480d75d1d2644ca" : String) ≠
      "7cb63af0b5001d0a80f6e31ff8424d866a187c8d9c51f18961bd41c73cd6721f" :=
  ⟨rfl, rfl, by decide⟩

/-- C5 (amended): the bundle SHAPE is uniform (one summary plus a document
list) but the summary-hash rule varies by format: for `figma-native` the
summary contentHash is the hash of the path-sorted path/hash pair list of
the documents, while for any other format (the DTCG path) the bundle holds
exactly one document and the summary contentHash equals that document's own
contentHash. -/
theorem bundle_summary_hash_spec (inp : ExportInput) (settings : PersistedSettings)
    (now : String) (b : ExportBundle)
    (h : buildExportBundle inp settings now = .ok b) :
    (jsOrStr settings.exportFormat "dtcg" = "figma-native" →
      b.summary.contentHash = summaryPairsHash b.documents) ∧
    (jsOrStr settings.exportFormat "dtcg" ≠ "figma-native" →
      ∃ d, b.documents = [d] ∧ b.summary.contentHash = d.contentHash) := by
  constructor
  · intro hf
    simp only [buildExportBundle, hf, if_pos] at h
    cases h
    rfl
  · intro hn
    simp only [buildExportBundle, if_neg hn] at h
    cases hj : buildDtcgJson inp with
    | error e =>
      rw [buildDtcgBundle, hj] at h
      exact absurd h (by simp)
    | ok root =>
      rw [buildDtcgBundle, hj] at h
      cases h
      exact ⟨_, rfl, rfl⟩

set_option maxRecDepth 200000 in
theorem bundle_summary_hash_spec_witness :
    (∃ d, c5WitnessBundle.documents = [d] ∧
      c5WitnessBundle.summary.contentHash = d.contentHash) ∧
    (buildFigmaNativeExport emptyInp ⟨"singleFile", none, "variables.json"⟩).summary.contentHash =
      summaryPairsHash
        (buildFigmaNativeExport emptyInp ⟨"singleFile", none, "variables.json"⟩).documents :=
  ⟨(bundle_summary_hash_spec emptyInp dtcgSettings "T" c5WitnessBundle rfl).2
      (by decide),
   (bundle_summary_hash_spec emptyInp ⟨some "figma-native", none, none, none⟩ "T"
      (buildFigmaNativeExport emptyInp ⟨"singleFile", none, "variables.json"⟩) rfl).1
      (by decide)⟩

end Figgit

namespace Figgit

/-- C1 counterexample: the skip guard is `embeddedHash && embeddedHash ===
currentHash`, so an existing remote copy whose embedded hash is the empty
string — equal to a degenerate empty caller-supplied hash — is NOT skipped:
the falsy embedded hash defeats the guard and a PUT is issued. -/
theorem upsert_empty_hash_counterexample :
    embeddedContentHash envEmptyHash.jsonParse envEmptyHash.existingFile.content =
      some (.str "") ∧
    upsertFile envEmptyHash "" =
      (.ok ⟨true, false, some "u2", some "cs"⟩, [some "sha1"]) :=
  ⟨rfl, rfl⟩

/-- C1 (amended): when the branch probe succeeds, the remote copy exists,
and its embedded `meta.contentHash` equals the caller-supplied
`currentHash` which is moreover non-empty (truthy — the guard is
`embeddedHash && embeddedHash === currentHash`), `upsertFile` returns
`skipped := true` and `updated := false` carrying the existing file's URL
and issues no PUT request (empty PUT trace). -/
theorem upsert_skip_spec (env : UpsertEnv) (currentHash : String)
    (hok : ensureBranch env.ensure = .ok ())
    (hex : getExistingFile env.existingStatus env.existingFile =
      .ok (some env.existingFile))
    (hemb : embeddedContentHash env.jsonParse env.existingFile.content =
      some (.str currentHash))
    (hne : currentHash ≠ "") :
    upsertFile env currentHash =
      (.ok ⟨false, true, some env.existingFile.html_url, none⟩, []) := by
  have hm : hashMatches env.jsonParse env.existingFile.content currentHash = true := by
    simp [hashMatches, hemb, jsTruthy, hne]
  simp [upsertFile, hok, hex, hm]

theorem upsert_skip_spec_witness :
    upsertFile envSkip "h1" = (.ok ⟨false, true, some "http://u1", none⟩, []) :=
  upsert_skip_spec envSkip "h1" rfl rfl rfl (by decide)

/-- C8 counterexample: the race-skip re-check after a first-attempt 409 uses
the same truthiness-guarded comparison, so with a degenerate empty
caller-supplied hash matching an empty embedded hash the conflict branch
does NOT skip: it retries the PUT, issuing two PUT requests. -/
theorem conflict_empty_hash_counterexample :
    embeddedContentHash envRaceEmptyHash.jsonParse
        envRaceEmptyHash.refetchFile.content = some (.str "") ∧
    attemptWrite envRaceEmptyHash none "" none =
      (.ok ⟨true, false, some "u4", some "cs2"⟩, [none, some "sha2"]) :=
  ⟨rfl, rfl⟩

/-- C8 (amended): after a 409 on the first PUT, `attemptWrite` refetches the
file once; if the refetched copy's embedded hash equals a NON-EMPTY
caller-supplied hash it reports `skipped := true` with no further PUT
(trace stays at one request); otherwise it retries the PUT exactly once
with the freshly fetched SHA, and a 409 on that retry is fatal (trace of
exactly two requests, the second carrying the refetched SHA); in every case
at most two PUT requests are issued. -/
theorem attemptWrite_conflict_spec :
    (∀ (env : UpsertEnv) (bodySha : Option String) (currentHash : String)
        (prev : Option GitHubFile) (l : GitHubFile),
      (env.put 0).status = 409 →
      getExistingFile env.refetchStatus env.refetchFile = .ok (some l) →
      embeddedContentHash env.jsonParse l.content = some (.str currentHash) →
      currentHash ≠ "" →
      attemptWrite env bodySha currentHash prev =
        (.ok ⟨false, true, some l.html_url, none⟩,
         [match prev with | some p => some p.sha | none => bodySha])) ∧
    (∀ (env : UpsertEnv) (bodySha : Option String) (currentHash : String)
        (prev : Option GitHubFile) (l : GitHubFile),
      (env.put 0).status = 409 →
      (env.put 1).status = 409 →
      getExistingFile env.refetchStatus env.refetchFile = .ok (some l) →
      hashMatches env.jsonParse l.content currentHash = false →
      attemptWrite env bodySha currentHash prev =
        (.error ("Failed to write file: " ++ toString (409 : Nat)),
         [match prev with | some p => some p.sha | none => bodySha, some l.sha])) ∧
    (∀ (env : UpsertEnv) (bodySha : Option String) (currentHash : String)
        (prev : Option GitHubFile),
      (attemptWrite env bodySha currentHash prev).2.length ≤ 2) := by
  refine ⟨?_, ?_, ?_⟩
  · intro env bodySha currentHash prev l h₄ hget hemb hne
    have hm : hashMatches env.jsonParse l.content currentHash = true := by
      simp [hashMatches, hemb, jsTruthy, hne]
    simp [attemptWrite, h₄, hget, hm]
  · intro env bodySha currentHash prev l h₄ h₄b hget hm
    simp [attemptWrite, attemptWriteRetry, h₄, h₄b, hget, hm]
  · intro env bodySha currentHash prev
    unfold attemptWrite
    by_cases h₄ : (env.put 0).status = 409
    · simp only [if_pos h₄]
      cases getExistingFile env.refetchStatus env.refetchFile with
      | error e => simp
      | ok latest =>
        cases latest with
        | some l =>
          by_cases hm : hashMatches env.jsonParse l.content currentHash
          · simp [hm]
          · unfold attemptWriteRetry
            by_cases h₂ : 200 ≤ (env.put 1).status ∧ (env.put 1).status ≤ 299 <;>
              simp [hm, h₂]
        | none =>
          unfold attemptWriteRetry
          by_cases h₂ : 200 ≤ (env.put 1).status ∧ (env.put 1).status ≤ 299 <;>
            simp [h₂]
    · by_cases h₂ : 200 ≤ (env.put 0).status ∧ (env.put 0).status ≤ 299 <;>
        simp [h₄, h₂]

theorem attemptWrite_conflict_spec_witness :
    attemptWrite envRace none "h1" none =
      (.ok ⟨false, true, some "http://u3", none⟩, [none]) ∧
    attemptWrite envDoubleConflict none "h1" none =
      (.error ("Failed to write file: " ++ toString (409 : Nat)), [none, some "sha2"]) ∧
    (attemptWrite envSkip none "h1" none).2.length ≤ 2 :=
  ⟨attemptWrite_conflict_spec.1 envRace none "h1" none ⟨"sha2", "e30=", "http://u3"⟩
      rfl rfl rfl (by decide),
   attemptWrite_conflict_spec.2.1 envDoubleConflict none "h1" none
      ⟨"sha2", "e30=", "http://u3"⟩ rfl rfl rfl rfl,
   attemptWrite_conflict_spec.2.2 envSkip none "h1" none⟩

end Figgit

namespace Figgit

theorem capSeq_shift (d mult maxDelay : Nat) :
    ∀ k, capSeq (min (d * mult) maxDelay) mult maxDelay k =
      capSeq d mult maxDelay (k + 1)
  | 0 => rfl
  | k + 1 => by
    simp only [capSeq, capSeq_shift d mult maxDelay k]

theorem withRetryGo_delays (script : Nat → Except String α)
    (sr : String → Nat → Bool) (mult maxDelay : Nat) :
    ∀ (attempts : List Nat) (d : Nat) (acc : List Nat),
      ∃ n, (withRetryGo script sr mult maxDelay attempts d acc).2 =
        acc ++ (List.range n).map (capSeq d mult maxDelay)
  | [], d, acc => ⟨0, by simp [withRetryGo]⟩
  | a :: rest, d, acc => by
    cases hs : script a with
    | ok v => exact ⟨0, by simp [withRetryGo, hs]⟩
    | error e =>
      cases rest with
      | nil => exact ⟨0, by simp [withRetryGo, hs]⟩
      | cons b bs =>
        by_cases hr : sr e a
        · obtain ⟨n, hn⟩ := withRetryGo_delays script sr mult maxDelay (b :: bs)
            (min (d * mult) maxDelay) (acc ++ [d])
          refine ⟨n + 1, ?_⟩
          have hstep : withRetryGo script sr mult maxDelay (a :: b :: bs) d acc =
              withRetryGo script sr mult maxDelay (b :: bs)
                (min (d * mult) maxDelay) (acc ++ [d]) := by
            simp [withRetryGo, hs, hr]
          have hmap : (List.range n).map (capSeq (min (d * mult) maxDelay) mult maxDelay)
              = (List.range n).map (fun k => capSeq d mult maxDelay (k + 1)) :=
            List.map_congr_left (fun k _ => capSeq_shift d mult maxDelay k)
          rw [hstep, hn, hmap, List.range_succ_eq_map]
          simp [List.map_map, Function.comp, capSeq]
        · exact ⟨0, by simp [withRetryGo, hs, hr]⟩

/-- C9: with `initialDelay := 1000`, `backoffMultiplier := 2` and
`maxDelay := 2000` (and `maxAttempts := 4`, as in the repository's retry
test), a wrapped function failing on the first three attempts with a
retryable error yields observed delays `[1000, 2000, 2000]` — capped, not
`[1000, 2000, 4000]`; in general the delay trace of any `withRetry` run is
a prefix of the capped geometric sequence in which each successive delay is
the previous one times the multiplier, capped at `maxDelay`. -/
theorem withRetry_backoff :
    (∀ (script : Nat → Except String Unit),
      (∀ a, 1 ≤ a → a ≤ 3 → script a = .error "Network error") →
      (withRetry script ⟨4, 1000, 2000, 2, defaultShouldRetry⟩).2 =
        [1000, 2000, 2000]) ∧
    (∀ (α : Type) (script : Nat → Except String α) (opts : RetryOptions),
      (withRetry script opts).2 =
        (List.range (withRetry script opts).2.length).map
          (capSeq opts.initialDelay opts.backoffMultiplier opts.maxDelay)) := by
  constructor
  · intro script h
    have h₁ := h 1 (by decide) (by decide)
    have h₂ := h 2 (by decide) (by decide)
    have h₃ := h 3 (by decide) (by decide)
    have hsr : ∀ k, defaultShouldRetry "Network error" k = true := fun _ => rfl
    show (withRetryGo script defaultShouldRetry 2 2000 [1, 2, 3, 4] 1000 []).2 =
      [1000, 2000, 2000]
    cases hs₄ : script 4 <;>
      simp [withRetryGo, h₁, h₂, h₃, hs₄, hsr]
  · intro α script opts
    obtain ⟨n, hn⟩ := withRetryGo_delays script opts.shouldRetry opts.backoffMultiplier
      opts.maxDelay (List.range' 1 opts.maxAttempts) opts.initialDelay []
    have h₂ : (withRetry script opts).2 =
        (List.range n).map
          (capSeq opts.initialDelay opts.backoffMultiplier opts.maxDelay) := by
      simpa [withRetry] using hn
    rw [h₂]
    simp

theorem withRetry_backoff_witness :
    (withRetry (fun _ => (.error "Network error" : Except String Unit))
        ⟨4, 1000, 2000, 2, defaultShouldRetry⟩).2 = [1000, 2000, 2000] ∧
    (withRetry (fun _ => (.error "Network error" : Except String Unit))
        ⟨3, 7, 20, 3, defaultShouldRetry⟩).2 =
      (List.range (withRetry (fun _ => (.error "Network error" : Except String Unit))
        ⟨3, 7, 20, 3, defaultShouldRetry⟩).2.length).map (capSeq 7 3 20) :=
  ⟨withRetry_backoff.1 (fun _ => .error "Network error") (fun _ _ _ => rfl),
   withRetry_backoff.2 Unit (fun _ => .error "Network error")
     ⟨3, 7, 20, 3, defaultShouldRetry⟩⟩

end Figgit
